import Mathlib

/-!
# A verification development for the FAP interpreter

This file gives a shallow embedding of the runtime evaluator of the FAP
scripting-language interpreter (`fap_interpreter/runtime_checker.py` together
with `fap_interpreter/environment.py`) and proves properties of the embedded
evaluator.

Modelling conventions:

* Python machine integers are arbitrary precision, so `Int` models them
  exactly.  Python floats are modelled by `ℚ`; none of the verified
  properties depend on IEEE rounding.
* The mutable interpreter object (`RuntimeChecker`) is modelled by an
  explicit state record `St` threaded through every operation.  The chained
  `Environment` objects are modelled by an arena (`St.scopes`, a list of
  scope records addressed by index) with non-owning parent indices; a child
  scope is always appended at the end of the arena, so a parent index is
  always smaller than the index of its child.  The lookup walks guard on
  this (`j < i`) so that they are total; states reachable from the initial
  state satisfy the guard on every walked link.
* Host (Python) exceptions are modelled by the `Res.exn` constructor; the
  top-level statement loop catches them exactly as
  `RuntimeChecker.execute` does.
* `_add_error` wraps every message in a constant ANSI colour prefix/suffix
  before appending and deduplicating.  The wrapping is injective and common
  to all messages, so it is omitted here: deduplication behaves identically
  on the unwrapped messages.
* Debug output, `print` calls and the two warning channels
  (use-before-assignment and unused-name warnings) only write to the
  console; they never enter the error list, the environment or the control
  flags.  Use-before-assignment additionally records the name in
  `warned_vars`, which is modelled.  The pre-pass `collect_defined_vars`
  only feeds the warning machinery (`defined_vars`), which no verified
  property depends on.
* Statement and expression forms not exercised by any verified property
  (`out.*` output statements, `getInputFor` input, the `squFor`-family math
  calls, `|...|` absolute value, list indexing and `add`/`clear` method
  calls) are outside the embedded sublanguage.
* Error-message texts raised by the Python runtime itself (`TypeError`,
  `int()` conversion failures, ...) are reproduced in CPython's format
  where that format is deterministic.
-/

namespace FAP

/-- A function record as stored by `Environment.define_func`: the typed
parameter list (name, declared type), the body (stored by index into the
program-wide body arena `St.func_bodies`, modelling the shared reference to
the parsed block) and the index of the defining (closure) environment. -/
structure FuncRec where
  params : List (String × String)
  bodyIdx : Nat
  envIdx : Nat
deriving Repr, DecidableEq

/-- Runtime values.  `int`/`float`/`str`/`list` are the FAP value kinds;
`pynone` models the Python `None` that several visitors return; `builtin`
models the four pseudo-object dictionaries (`out`, `rep`, `now`, `back`)
installed at startup; `funcv` models a function record retrieved through
`Environment.get_value` (in Python this is the raw function dictionary). -/
inductive Value where
  | int (n : Int)
  | float (q : ℚ)
  | str (s : String)
  | list (xs : List Value)
  | pynone
  | builtin (members : List (String × String))
  | funcv (f : FuncRec)
deriving Repr

/-- The Python runtime type name of a value (`type(v).__name__`). -/
def typeNameOf : Value → String
  | Value.int _ => "int"
  | Value.float _ => "float"
  | Value.str _ => "str"
  | Value.list _ => "list"
  | Value.pynone => "NoneType"
  | Value.builtin _ => "dict"
  | Value.funcv _ => "dict"

/-- Decimal rendering of a `ℚ` standing for a Python float, matching
`str(float)` on floats with a terminating decimal expansion (the only ones
produced in the verified properties).  A non-terminating expansion falls
back to a fraction spelling. -/
def ratFloatStr (q : ℚ) : String :=
  if q.den = 1 then toString q.num ++ ".0"
  else
    match (List.range 18).find? (fun k => 10 ^ k % q.den == 0) with
    | Option.some k =>
        let sign := if q.num < 0 then "-" else ""
        let digits := toString (q.num.natAbs * 10 ^ k / q.den)
        let digits :=
          if digits.length ≤ k then
            String.join (List.replicate (k + 1 - digits.length) "0") ++ digits
          else digits
        sign ++ digits.dropRight k ++ "." ++ digits.takeRight k
    | Option.none => toString q.num ++ "/" ++ toString q.den

mutual

/-- Python `repr` of a value (used inside list formatting).  The `repr` of
a function dictionary contains a host memory address and is replaced by a
fixed placeholder; no verified property formats one. -/
def pyRepr : Value → String
  | Value.int n => toString n
  | Value.float q => ratFloatStr q
  | Value.str s => "\x27" ++ s ++ "\x27"
  | Value.list xs => "[" ++ pyReprList xs ++ "]"
  | Value.pynone => "None"
  | Value.builtin ms =>
      "\x7b" ++ String.intercalate ", "
        (ms.map (fun kv => "\x27" ++ kv.1 ++ "\x27: \x27" ++ kv.2 ++ "\x27")) ++ "\x7d"
  | Value.funcv _ => "\x7bfunction-record\x7d"

/-- Comma-separated reprs of the elements of a list value. -/
def pyReprList : List Value → String
  | [] => ""
  | [x] => pyRepr x
  | x :: xs => pyRepr x ++ ", " ++ pyReprList xs

end

/-- Python `str` of a value. -/
def pyStr : Value → String
  | Value.str s => s
  | v => pyRepr v

/-- Result of a Python-level operation: a value or a raised exception
carrying the exception message. -/
inductive Res (α : Type) where
  | ok (a : α)
  | exn (msg : String)
deriving Repr

mutual

/-- Python `==` restricted to the embedded value kinds (never raises). -/
def pyEq : Value → Value → Bool
  | Value.int a, Value.int b => a == b
  | Value.int a, Value.float b => (a : ℚ) == b
  | Value.float a, Value.int b => a == (b : ℚ)
  | Value.float a, Value.float b => a == b
  | Value.str a, Value.str b => a == b
  | Value.list a, Value.list b => pyEqList a b
  | Value.pynone, Value.pynone => true
  | Value.builtin a, Value.builtin b => a == b
  | Value.funcv a, Value.funcv b => a == b
  | _, _ => false

/-- Python `==` on lists: elementwise. -/
def pyEqList : List Value → List Value → Bool
  | [], [] => true
  | a :: as_, b :: bs => pyEq a b && pyEqList as_ bs
  | _, _ => false

end

/-- The CPython message of the `TypeError` raised by an unsupported binary
operation. -/
def unsupportedOp (op : String) (a b : Value) : String :=
  "unsupported operand type(s) for " ++ op ++ ": \x27" ++ typeNameOf a ++
    "\x27 and \x27" ++ typeNameOf b ++ "\x27"

/-- The CPython message of the `TypeError` raised by an unsupported
comparison. -/
def unsupportedCmp (op : String) (a b : Value) : String :=
  "\x27" ++ op ++ "\x27 not supported between instances of \x27" ++
    typeNameOf a ++ "\x27 and \x27" ++ typeNameOf b ++ "\x27"

mutual

/-- Python `<` on the embedded value kinds. -/
def pyLtR : Value → Value → Res Bool
  | Value.int a, Value.int b => Res.ok (decide (a < b))
  | Value.int a, Value.float b => Res.ok (decide ((a : ℚ) < b))
  | Value.float a, Value.int b => Res.ok (decide (a < (b : ℚ)))
  | Value.float a, Value.float b => Res.ok (decide (a < b))
  | Value.str a, Value.str b => Res.ok (decide (a < b))
  | Value.list a, Value.list b => pyLtListR a b
  | a, b => Res.exn (unsupportedCmp "<" a b)

/-- Python `<` on lists: lexicographic, first differing element decides. -/
def pyLtListR : List Value → List Value → Res Bool
  | [], [] => Res.ok false
  | [], _ :: _ => Res.ok true
  | _ :: _, [] => Res.ok false
  | a :: as_, b :: bs => if pyEq a b then pyLtListR as_ bs else pyLtR a b

end

/-- Python `<=` (equivalent to `< ∨ ==` on the kinds it is defined on). -/
def pyLeR (a b : Value) : Res Bool :=
  match pyLtR a b with
  | Res.ok true => Res.ok true
  | Res.ok false => Res.ok (pyEq a b)
  | Res.exn _ => Res.exn (unsupportedCmp "<=" a b)

/-- Python `>`. -/
def pyGtR (a b : Value) : Res Bool :=
  match pyLtR b a with
  | Res.ok r => Res.ok r
  | Res.exn _ => Res.exn (unsupportedCmp ">" a b)

/-- Python `>=`. -/
def pyGeR (a b : Value) : Res Bool :=
  match pyLeR b a with
  | Res.ok r => Res.ok r
  | Res.exn _ => Res.exn (unsupportedCmp ">=" a b)

/-- Python `+` as applied by `visit_expr` after its either-operand-is-a-str
branch has been taken care of: numeric addition, string and list
concatenation, `TypeError` otherwise. -/
def pyAddRaw : Value → Value → Res Value
  | Value.int a, Value.int b => Res.ok (Value.int (a + b))
  | Value.int a, Value.float b => Res.ok (Value.float ((a : ℚ) + b))
  | Value.float a, Value.int b => Res.ok (Value.float (a + (b : ℚ)))
  | Value.float a, Value.float b => Res.ok (Value.float (a + b))
  | Value.str a, Value.str b => Res.ok (Value.str (a ++ b))
  | Value.list a, Value.list b => Res.ok (Value.list (a ++ b))
  | a, b => Res.exn (unsupportedOp "+" a b)

/-- Python `-`: numeric only. -/
def pySub : Value → Value → Res Value
  | Value.int a, Value.int b => Res.ok (Value.int (a - b))
  | Value.int a, Value.float b => Res.ok (Value.float ((a : ℚ) - b))
  | Value.float a, Value.int b => Res.ok (Value.float (a - (b : ℚ)))
  | Value.float a, Value.float b => Res.ok (Value.float (a - b))
  | a, b => Res.exn (unsupportedOp "-" a b)

/-- Repetition of a string, Python `s * n` (a non-positive count gives the
empty string). -/
def strRepeat (s : String) (n : Int) : String :=
  String.join (List.replicate n.toNat s)

/-- Python `*`: numeric product, or sequence repetition when one operand is
a `str`/`list` and the other an `int`. -/
def pyMul : Value → Value → Res Value
  | Value.int a, Value.int b => Res.ok (Value.int (a * b))
  | Value.int a, Value.float b => Res.ok (Value.float ((a : ℚ) * b))
  | Value.float a, Value.int b => Res.ok (Value.float (a * (b : ℚ)))
  | Value.float a, Value.float b => Res.ok (Value.float (a * b))
  | Value.str s, Value.int n => Res.ok (Value.str (strRepeat s n))
  | Value.int n, Value.str s => Res.ok (Value.str (strRepeat s n))
  | Value.list xs, Value.int n => Res.ok (Value.list (List.flatten (List.replicate n.toNat xs)))
  | Value.int n, Value.list xs => Res.ok (Value.list (List.flatten (List.replicate n.toNat xs)))
  | a, b => Res.exn (unsupportedOp "*" a b)

/-- Python `/` (true division): always a float on numeric operands,
`TypeError` otherwise.  The caller tests the divisor against zero before
calling this. -/
def pyDiv : Value → Value → Res Value
  | Value.int a, Value.int b => Res.ok (Value.float ((a : ℚ) / (b : ℚ)))
  | Value.int a, Value.float b => Res.ok (Value.float ((a : ℚ) / b))
  | Value.float a, Value.int b => Res.ok (Value.float (a / (b : ℚ)))
  | Value.float a, Value.float b => Res.ok (Value.float (a / b))
  | a, b => Res.exn (unsupportedOp "/" a b)

/-- The `right == 0` test guarding division (`0.0 == 0` holds in Python;
no other embedded value equals `0`). -/
def isPyZero : Value → Bool
  | Value.int n => n == 0
  | Value.float q => q == 0
  | _ => false

/-! ## Abstract syntax

The node kinds mirror the grammar in `fap_interpreter/parser.py` as consumed
by the visitors of `RuntimeChecker`.  A `NUMBER` token is already split into
its `int`/`float` reading (`visit_NUMBER` keys on the presence of a decimal
point in the token text), a `STRING` token carries its unquoted text
(`visit_STRING` strips the quotes). -/

/-- A `type_name` subtree (`type_int`/`type_float`/`type_str`).  The grammar
builds it from inline string literals only, which the parser filters out of
the tree, so the subtree carries no child tokens. -/
inductive TyName where
  | tyInt
  | tyFloat
  | tyStr
deriving Repr, DecidableEq

/-- An `ADD_OP` token. -/
inductive AddOp where
  | add
  | sub
deriving Repr, DecidableEq

/-- A `MUL_OP` token. -/
inductive MulOp where
  | mul
  | div
deriving Repr, DecidableEq

/-- A `COMPARISON_OP` token (`?` is equals, `!` is not-equals). -/
inductive CmpOp where
  | ceq
  | cne
  | cgt
  | clt
  | cge
  | cle
deriving Repr, DecidableEq

/-- A logical operator keyword. -/
inductive LOp where
  | and
  | or
deriving Repr, DecidableEq

mutual

/-- A `factor` node. -/
inductive Factor where
  | numInt (n : Int)
  | numFloat (q : ℚ)
  | strLit (s : String)
  | ident (x : String)
  | member (obj attr : String)
  | listLit (es : List Expr)
  | funcCall (f : String) (args : List Expr)
  | paren (e : Expr)
deriving Repr

/-- A `term` node: a head factor followed by `MUL_OP factor` pairs. -/
inductive Term where
  | mk (f : Factor) (ops : List (MulOp × Factor))
deriving Repr

/-- An `expr` node: a head term followed by `ADD_OP term` pairs. -/
inductive Expr where
  | mk (t : Term) (ops : List (AddOp × Term))
deriving Repr

end

/-- A `condition` node: `expr COMPARISON_OP expr`. -/
structure Cond where
  lhs : Expr
  op : CmpOp
  rhs : Expr
deriving Repr

/-- A child of a `conditions` node: a `condition` subtree or a `logic_op`
subtree.  The `logic_op` payload is the parsed keyword token when the tree
retains one (`visit_logic_op` falls back to `and` when the subtree has no
token child, which is what this grammar produces, the keywords being inline
string literals that the parser filters out). -/
inductive CondChild where
  | cond (c : Cond)
  | lop (tok : Option LOp)
deriving Repr

/-- A statement node.  Blocks are the lists of `statement` children of a
`block` subtree (`visit_block` skips the interleaved `NEWLINE` tokens). -/
inductive Stmt where
  | var_def (ty : TyName) (name : String) (init : Option Expr)
  | const_def (ty : TyName) (name : String) (init : Expr)
  | list_def (name : String) (elems : List Expr)
  | assignment (name : String) (e : Expr)
  | cause_stmt (conds : List CondChild) (ifBlock : List Stmt)
      (orBlock : Option (List Stmt))
  | again_stmt (count : Expr) (idx : Option String) (body : List Stmt)
  | rep_stop
  | func_def (name : String) (params : List (TyName × String)) (body : List Stmt)
  | func_call_stmt (f : String) (args : List Expr)
  | back_stmt (e : Option Expr)
deriving Repr

/-! ## Environment and interpreter state -/

/-- One `Environment` object: the three name tables and the non-owning
parent link (an arena index). -/
structure Scope where
  vars : List (String × Value)
  constants : List (String × Value)
  functions : List (String × FuncRec)
  parent : Option Nat
deriving Repr

/-- A fresh scope. -/
def Scope.empty : Scope := ⟨[], [], [], Option.none⟩

/-- The whole mutable state of one `RuntimeChecker` run: the environment
arena with the index of the active scope, the diagnostic sets and lists,
the control-flow flags, the body arena for function records, and the raw
source lines consulted by `visit_logic_op`. -/
structure St where
  scopes : List Scope
  cur : Nat
  used_variables : List String
  defined_vars : List String
  assigned_vars : List String
  warned_vars : List String
  errors : List String
  error_vars_list : List String
  has_output : Bool
  should_break : Bool
  return_value : Value
  should_return : Bool
  func_bodies : List (List Stmt)
  original_lines : List String
  current_line_num : Nat
deriving Repr

/-- Key lookup membership in an association list (a Python `dict`
membership test). -/
def assocHas (k : String) (l : List (String × α)) : Bool :=
  (l.lookup k).isSome

/-- Overwrite-or-append for an association list, matching Python `dict`
assignment (an existing key keeps its position). -/
def assocSet (k : String) (v : α) : List (String × α) → List (String × α)
  | [] => [(k, v)]
  | (k2, v2) :: rest =>
      if k2 = k then (k, v) :: rest else (k2, v2) :: assocSet k v rest

/-- Key removal (`dict.pop(k, None)`). -/
def assocRemove (k : String) : List (String × α) → List (String × α)
  | [] => []
  | (k2, v2) :: rest =>
      if k2 = k then rest else (k2, v2) :: assocRemove k rest

/-- The scope stored at an arena index (total; an out-of-range index reads
as an empty scope and is never produced by execution). -/
def getScope (st : St) (i : Nat) : Scope :=
  (st.scopes[i]?).getD Scope.empty

/-- Replace the scope at an arena index. -/
def setScope (st : St) (i : Nat) (sc : Scope) : St :=
  { st with scopes := st.scopes.set i sc }

/-- Set membership insertion for the Python `set` fields. -/
def addToSet (x : String) (l : List String) : List String :=
  if l.contains x then l else l ++ [x]

/-- `RuntimeChecker._add_error`: append the message unless an identical one
was already recorded. -/
def add_error (st : St) (msg : String) : St :=
  if st.errors.contains msg then st
  else { st with errors := st.errors ++ [msg] }

/-! The environment walks (`is_defined`, `get_value`, `set_value`,
`get_func`, `is_function`) recurse along parent links.  Each is written
with an explicit step budget (structural, so that closed computations
reduce); the wrappers supply the budget `i + 1`, which suffices because a
parent index is always smaller than the index of its child, the walk
refusing any non-decreasing link. -/

/-- `Environment.is_defined`, walking at most `fuel` links. -/
def isDefinedW (st : St) : Nat → Nat → String → Bool
  | 0, _, _ => false
  | Nat.succ fuel, i, name =>
      let sc := getScope st i
      if assocHas name sc.vars || assocHas name sc.constants
          || assocHas name sc.functions then true
      else
        match sc.parent with
        | Option.none => false
        | Option.some j => if j < i then isDefinedW st fuel j name else false

/-- `Environment.is_defined` on the scope at index `i`. -/
def env_is_defined (st : St) (i : Nat) (name : String) : Bool :=
  isDefinedW st (i + 1) i name

/-- What `Environment.get_value` found. -/
inductive GotVal where
  | val (v : Value)
  | func (f : FuncRec)
deriving Repr

/-- `Environment.get_value`, walking at most `fuel` links: constants, then
variables, then functions, then the parent; `Option.none` when exhausted
(the Python code raises `Variable not defined`). -/
def getValueW (st : St) : Nat → Nat → String → Option GotVal
  | 0, _, _ => Option.none
  | Nat.succ fuel, i, name =>
      let sc := getScope st i
      match sc.constants.lookup name with
      | Option.some v => Option.some (GotVal.val v)
      | Option.none =>
        match sc.vars.lookup name with
        | Option.some v => Option.some (GotVal.val v)
        | Option.none =>
          match sc.functions.lookup name with
          | Option.some f => Option.some (GotVal.func f)
          | Option.none =>
            match sc.parent with
            | Option.none => Option.none
            | Option.some j =>
                if j < i then getValueW st fuel j name else Option.none

/-- `Environment.get_value` on the scope at index `i`. -/
def env_get_value (st : St) (i : Nat) (name : String) : Option GotVal :=
  getValueW st (i + 1) i name

/-- The value form of a lookup result (`get_value` hands a function record
back as its raw dictionary). -/
def GotVal.toValue : GotVal → Value
  | GotVal.val v => v
  | GotVal.func f => Value.funcv f

/-- `Environment.set_value`, walking at most `fuel` links: a constant at
the visited scope raises; a variable at the visited scope is updated in
place; otherwise the walk delegates to the parent only when the parent
chain defines the name, and raises `Variable not defined` otherwise. -/
def setValueW (st : St) : Nat → Nat → String → Value → Except String St
  | 0, _, name, _ => Except.error ("Variable not defined: " ++ name)
  | Nat.succ fuel, i, name, v =>
      let sc := getScope st i
      if assocHas name sc.constants then
        Except.error ("Cannot modify constant: " ++ name)
      else if assocHas name sc.vars then
        Except.ok (setScope st i { sc with vars := assocSet name v sc.vars })
      else
        match sc.parent with
        | Option.some j =>
            if j < i then
              if env_is_defined st j name then setValueW st fuel j name v
              else Except.error ("Variable not defined: " ++ name)
            else Except.error ("Variable not defined: " ++ name)
        | Option.none => Except.error ("Variable not defined: " ++ name)

/-- `Environment.set_value` on the scope at index `i`. -/
def env_set_value (st : St) (i : Nat) (name : String) (v : Value) :
    Except String St :=
  setValueW st (i + 1) i name v

/-- `Environment.get_func`, walking at most `fuel` links. -/
def getFuncW (st : St) : Nat → Nat → String → Option FuncRec
  | 0, _, _ => Option.none
  | Nat.succ fuel, i, name =>
      let sc := getScope st i
      match sc.functions.lookup name with
      | Option.some f => Option.some f
      | Option.none =>
        match sc.parent with
        | Option.none => Option.none
        | Option.some j => if j < i then getFuncW st fuel j name else Option.none

/-- `Environment.get_func` on the scope at index `i`. -/
def env_get_func (st : St) (i : Nat) (name : String) : Option FuncRec :=
  getFuncW st (i + 1) i name

/-- `Environment.is_function`: membership in a functions table anywhere on
the parent chain. -/
def env_is_function (st : St) (i : Nat) (name : String) : Bool :=
  (env_get_func st i name).isSome

/-- `Environment.is_constant`: membership in the constants table of the
receiver scope only (no parent delegation). -/
def env_is_constant (st : St) (i : Nat) (name : String) : Bool :=
  assocHas name (getScope st i).constants

/-- `Environment.define_var`: unconditional write into the receiver
scope's variables table. -/
def env_define_var (st : St) (i : Nat) (name : String) (v : Value) : St :=
  let sc := getScope st i
  setScope st i { sc with vars := assocSet name v sc.vars }

/-- `Environment.define_const`: unconditional write into the receiver
scope's constants table. -/
def env_define_const (st : St) (i : Nat) (name : String) (v : Value) : St :=
  let sc := getScope st i
  setScope st i { sc with constants := assocSet name v sc.constants }

/-- `Environment.define_func`: unconditional write into the receiver
scope's functions table. -/
def env_define_func (st : St) (i : Nat) (name : String) (f : FuncRec) : St :=
  let sc := getScope st i
  setScope st i { sc with functions := assocSet name f sc.functions }

/-- `Environment.create_child_env`: a fresh scope whose parent is the given
index, appended to the arena; returns the new state and the child index. -/
def create_child_env (st : St) (parent : Nat) : St × Nat :=
  ({ st with scopes := st.scopes ++ [{ Scope.empty with parent := Option.some parent }] },
    st.scopes.length)

/-! ## Casting (`RuntimeChecker.cast_type`) -/

/-- Python `str.isdigit` restricted to ASCII digits. -/
def strIsDigit (s : String) : Bool :=
  s ≠ "" && s.toList.all Char.isDigit

/-- The guard of the string-to-int branch:
`value.isdigit() or (value.startswith('-') and value[1:].isdigit())`. -/
def intLikeStr (s : String) : Bool :=
  strIsDigit s || ("-".isPrefixOf s && strIsDigit (s.drop 1))

/-- Python `float(str)` on plain decimal forms (optional sign, optional
single decimal point); exponent, infinity and NaN spellings are not part of
the embedded sublanguage. -/
def parseFloatStr (s : String) : Option ℚ :=
  let t := s.trim
  let sign : ℚ := if "-".isPrefixOf t then -1 else 1
  let t := if "-".isPrefixOf t || "+".isPrefixOf t then t.drop 1 else t
  match t.split (· = '.') with
  | [a] =>
      if strIsDigit a then Option.some (sign * ((a.toNat?).getD 0 : ℚ))
      else Option.none
  | [a, b] =>
      if (strIsDigit a || a = "") && (strIsDigit b || b = "") &&
          ¬(a = "" && b = "") then
        Option.some (sign * (((a.toNat?).getD 0 : ℚ) +
          ((b.toNat?).getD 0 : ℚ) / (10 ^ b.length : ℚ)))
      else Option.none
  | _ => Option.none

/-- The text of the error recorded when a cast raises, as assembled by the
`except` clause of `cast_type`. -/
def castErrText (v : Value) (tyName varName innerMsg : String) : String :=
  "Cannot cast \x27" ++ pyStr v ++ "\x27 to type \x27" ++ tyName ++ "\x27" ++
    (if varName ≠ "" then " for variable \x27" ++ varName ++ "\x27" else "") ++
    (if innerMsg ≠ "" then " - " ++ innerMsg else "")

/-- The failure exit of `cast_type`: record the assembled error, poison the
variable name when one was supplied (an unconditional list append in the
source), yield no value. -/
def castFail (st : St) (v : Value) (tyName varName innerMsg : String) :
    Option Value × St :=
  let st1 := add_error st (castErrText v tyName varName innerMsg)
  let st2 :=
    if varName ≠ "" then
      { st1 with error_vars_list := st1.error_vars_list ++ [varName] }
    else st1
  (Option.none, st2)

/-- `RuntimeChecker.cast_type`.  Returns the cast value, or `Option.none`
with the recorded error and poisoning of the failure path; a poisoned
variable name short-circuits to `Option.none` with no error. -/
def cast_type (st : St) (v : Value) (tyName : String) (varName : String) :
    Option Value × St :=
  if varName ≠ "" && st.error_vars_list.contains varName then
    (Option.none, st)
  else if tyName = "int" then
    match v with
    | Value.str s =>
        if intLikeStr s then (Option.some (Value.int ((s.toInt?).getD 0)), st)
        else
          castFail st v tyName varName
            ("String \x27" ++ s ++ "\x27 cannot be converted to int")
    | Value.float q =>
        if q.den = 1 then (Option.some (Value.int q.num), st)
        else
          castFail st v tyName varName
            ("Float \x27" ++ ratFloatStr q ++
              "\x27 cannot be converted to int without loss of precision")
    | Value.int n => (Option.some (Value.int n), st)
    | _ =>
        castFail st v tyName varName
          ("int() argument must be a string, a bytes-like object or a real number, not \x27" ++
            typeNameOf v ++ "\x27")
  else if tyName = "float" then
    match v with
    | Value.str s =>
        match parseFloatStr s with
        | Option.some q => (Option.some (Value.float q), st)
        | Option.none =>
            castFail st v tyName varName
              ("String \x27" ++ s ++ "\x27 cannot be converted to float")
    | Value.int n => (Option.some (Value.float (n : ℚ)), st)
    | Value.float q => (Option.some (Value.float q), st)
    | _ =>
        castFail st v tyName varName
          ("float() argument must be a string or a real number, not \x27" ++
            typeNameOf v ++ "\x27")
  else if tyName = "str" then
    (Option.some (Value.str (pyStr v)), st)
  else
    let st1 := add_error st ("Unsupported type: \x27" ++ tyName ++ "\x27" ++
      (if varName ≠ "" then " for variable \x27" ++ varName ++ "\x27" else ""))
    let st2 :=
      if varName ≠ "" then
        { st1 with error_vars_list := st1.error_vars_list ++ [varName] }
      else st1
    (Option.none, st2)

/-! ## The evaluator -/

/-- Outcome of one evaluation step: out of fuel (`Option.none`), a raised
host exception, or a value together with the updated state. -/
abbrev ERes (α : Type) : Type := Option (Res α × St)

/-- Sequencing: fuel exhaustion and raised exceptions propagate. -/
def resBind {α β : Type} (x : ERes α) (f : α → St → ERes β) : ERes β :=
  match x with
  | Option.none => Option.none
  | Option.some (Res.exn m, st) => Option.some (Res.exn m, st)
  | Option.some (Res.ok a, st) => f a st

/-- Whether a value is a Python `str`. -/
def isStrV : Value → Bool
  | Value.str _ => true
  | _ => false

/-- Whether a value is the Python `None`. -/
def isNoneV : Value → Bool
  | Value.pynone => true
  | _ => false

/-- Python `needle in hay` on strings: substring containment. -/
def strContainsSub (hay needle : String) : Bool :=
  (hay.toList.tails).any (fun t => needle.toList.isPrefixOf t)

/-- Python `attr in obj` for the values a `member_access_expr` receiver can
take: key membership for dictionaries, substring for strings, element
membership for lists; numbers and `None` raise `TypeError`. -/
def pyContainsR (v : Value) (attr : String) : Res Bool :=
  match v with
  | Value.builtin ms => Res.ok (assocHas attr ms)
  | Value.funcv _ => Res.ok (["params", "body", "env"].contains attr)
  | Value.str s => Res.ok (strContainsSub s attr)
  | Value.list xs => Res.ok (xs.any (fun x => pyEq x (Value.str attr)))
  | _ => Res.exn ("argument of type \x27" ++ typeNameOf v ++ "\x27 is not iterable")

/-- Python `obj[attr]` as executed by `visit_member_access_expr` after the
membership test succeeded.  Indexing a function dictionary at `body` or
`env` yields a host AST/environment object with no value-level counterpart;
it is reported as an exception marking the modelling boundary (no verified
property reaches it). -/
def pyIndexMember (v : Value) (attr : String) : Res Value :=
  match v with
  | Value.builtin ms => Res.ok (Value.str ((ms.lookup attr).getD ""))
  | Value.funcv f =>
      if attr = "params" then
        Res.ok (Value.list (f.params.map
          (fun p => Value.builtin [("name", p.1), ("type", p.2)])))
      else Res.exn "host object access outside the embedded sublanguage"
  | Value.str _ => Res.exn "string indices must be integers, not \x27str\x27"
  | Value.list _ => Res.exn "list indices must be integers or slices, not \x27str\x27"
  | _ => Res.exn ("\x27" ++ typeNameOf v ++ "\x27 object is not subscriptable")

/-- `RuntimeChecker.visit_logic_op`: when the current line number indexes
into the stored source lines, re-derive the operator from the raw line text
(`' and '` tested before `' or '`); otherwise fall back to the token child
when the subtree has one and to `and` when it does not. -/
def visit_logic_op (st : St) (tok : Option LOp) : LOp :=
  if 0 < st.current_line_num ∧ st.current_line_num ≤ st.original_lines.length then
    let line := (st.original_lines.getD (st.current_line_num - 1) "")
    if strContainsSub line " and " then LOp.and
    else if strContainsSub line " or " then LOp.or
    else tok.getD LOp.and
  else tok.getD LOp.and

/-- The combination loop of `visit_conditions`: start from the first
result, apply each operator to the running result and the next collected
result, and break out as soon as an `and` has produced `false` or an `or`
has produced `true`. -/
def combine_logic (first : Bool) : List (LOp × Bool) → Bool
  | [] => first
  | (LOp.and, b) :: rest =>
      let f := first && b
      if f then combine_logic f rest else false
  | (LOp.or, b) :: rest =>
      let f := first || b
      if f then true else combine_logic f rest

/-- The defaulting loop of `visit_conditions` when several results but no
operators were collected: conjoin everything, stopping at the first
`false`. -/
def and_fold (acc : Bool) : List Bool → Bool
  | [] => acc
  | b :: rest =>
      let f := acc && b
      if f then and_fold f rest else false

/-- The argument-casting loop of `visit_func_call`: cast each argument to
its declared parameter type, stopping at the first failure with the
recorded argument error. -/
def castArgsLoop (st : St) (fname : String) :
    List (String × String) → List Value → Nat → Option (List Value) × St
  | (_, ptype) :: ps, a :: as_, i =>
      let (c, st1) := cast_type st a ptype (fname ++ " argument " ++ toString (i + 1))
      match c with
      | Option.none =>
          (Option.none, add_error st1 ("Argument " ++ toString (i + 1) ++
            " of function \x27" ++ fname ++ "\x27 cannot be cast to type \x27" ++
            ptype ++ "\x27"))
      | Option.some cv =>
          match castArgsLoop st1 fname ps as_ (i + 1) with
          | (Option.none, st2) => (Option.none, st2)
          | (Option.some rest, st2) => (Option.some (cv :: rest), st2)
  | _, _, _ => (Option.some [], st)

/-- Parameter binding at call time: `define_var` of each casted argument in
the fresh child scope. -/
def bindParams (st : St) (i : Nat) :
    List ((String × String) × Value) → St
  | [] => st
  | ((pname, _), v) :: rest => bindParams (env_define_var st i pname v) i rest

/-- The declared-type string of a function parameter
(`visit_func_def` maps `type_int`/`type_float`/`type_str` and defaults to
`int`). -/
def tyStrOf : TyName → String
  | TyName.tyInt => "int"
  | TyName.tyFloat => "float"
  | TyName.tyStr => "str"

mutual

/-- `visit_factor` (with the token visitors folded in): evaluate one factor
node. -/
def evalFactor : Nat → Factor → St → ERes Value
  | 0, _, _ => Option.none
  | Nat.succ fuel, fct, st =>
    match fct with
    | Factor.numInt n => Option.some (Res.ok (Value.int n), st)
    | Factor.numFloat q => Option.some (Res.ok (Value.float q), st)
    | Factor.strLit s => Option.some (Res.ok (Value.str s), st)
    | Factor.ident x =>
        let st0 := { st with used_variables := addToSet x st.used_variables }
        if ¬ env_is_defined st0 st0.cur x then
          let st1 := add_error st0 ("Variable \x27" ++ x ++ "\x27 not defined")
          let st2 :=
            if st1.error_vars_list.contains x then st1
            else { st1 with error_vars_list := st1.error_vars_list ++ [x] }
          Option.some (Res.ok Value.pynone, st2)
        else
          let v := ((env_get_value st0 st0.cur x).getD (GotVal.val Value.pynone)).toValue
          let st3 :=
            if st0.defined_vars.contains x && ¬ st0.assigned_vars.contains x &&
                ¬ env_is_constant st0 st0.cur x && ¬ st0.warned_vars.contains x &&
                ¬ st0.error_vars_list.contains x then
              { st0 with warned_vars := addToSet x st0.warned_vars }
            else st0
          Option.some (Res.ok v, st3)
    | Factor.member obj attr =>
        if ¬ env_is_defined st st.cur obj then
          Option.some (Res.ok Value.pynone,
            add_error st ("Object \x27" ++ obj ++ "\x27 is not defined"))
        else
          let ov := ((env_get_value st st.cur obj).getD (GotVal.val Value.pynone)).toValue
          match pyContainsR ov attr with
          | Res.exn m => Option.some (Res.exn m, st)
          | Res.ok false =>
              Option.some (Res.ok Value.pynone,
                add_error st ("Object \x27" ++ obj ++ "\x27 has no member \x27" ++
                  attr ++ "\x27"))
          | Res.ok true =>
              if obj = "now" && attr = "repeat" then
                if env_is_defined st st.cur "repeat" then
                  Option.some (Res.ok
                    (((env_get_value st st.cur "repeat").getD
                      (GotVal.val Value.pynone)).toValue), st)
                else
                  Option.some (Res.ok Value.pynone, add_error st
                    "\x27now.repeat\x27 can only be used inside an Again loop that provides a repeat parameter")
              else
                match pyIndexMember ov attr with
                | Res.ok v => Option.some (Res.ok v, st)
                | Res.exn m => Option.some (Res.exn m, st)
    | Factor.listLit es =>
        resBind (evalExprList fuel es st) fun vs st1 =>
          Option.some (Res.ok (Value.list vs), st1)
    | Factor.funcCall f args => evalFuncCall fuel f args st
    | Factor.paren e => evalExpr fuel e st
termination_by structural fuel => fuel

/-- The multiplication/division loop of `visit_term`: a division whose
right operand compares equal to `0` records the error and makes the whole
term evaluate to `0` on the spot. -/
def evalTermOps : Nat → List (MulOp × Factor) → Value → St → ERes Value
  | 0, _, _, _ => Option.none
  | Nat.succ fuel, ops, acc, st =>
    match ops with
    | [] => Option.some (Res.ok acc, st)
    | (op, fct) :: rest =>
      resBind (evalFactor fuel fct st) fun rv st1 =>
        match op with
        | MulOp.mul =>
            match pyMul acc rv with
            | Res.ok v => evalTermOps fuel rest v st1
            | Res.exn m => Option.some (Res.exn m, st1)
        | MulOp.div =>
            if isPyZero rv then
              Option.some (Res.ok (Value.int 0), add_error st1 "Division by zero")
            else
              match pyDiv acc rv with
              | Res.ok v => evalTermOps fuel rest v st1
              | Res.exn m => Option.some (Res.exn m, st1)
termination_by structural fuel => fuel

/-- `visit_term`. -/
def evalTerm : Nat → Term → St → ERes Value
  | 0, _, _ => Option.none
  | Nat.succ fuel, Term.mk f ops, st =>
      resBind (evalFactor fuel f st) fun v st1 => evalTermOps fuel ops v st1
termination_by structural fuel => fuel

/-- The addition/subtraction loop of `visit_expr`: `+` concatenates the
`str` forms when either operand is a `str`, and applies Python `+`
otherwise; `-` applies Python `-`.  (The `*` and `/` branches of the source
loop are unreachable: `ADD_OP` only produces `+` and `-`.) -/
def evalExprOps : Nat → List (AddOp × Term) → Value → St → ERes Value
  | 0, _, _, _ => Option.none
  | Nat.succ fuel, ops, acc, st =>
    match ops with
    | [] => Option.some (Res.ok acc, st)
    | (op, t) :: rest =>
      resBind (evalTerm fuel t st) fun rv st1 =>
        match op with
        | AddOp.add =>
            if isStrV acc || isStrV rv then
              evalExprOps fuel rest (Value.str (pyStr acc ++ pyStr rv)) st1
            else
              match pyAddRaw acc rv with
              | Res.ok v => evalExprOps fuel rest v st1
              | Res.exn m => Option.some (Res.exn m, st1)
        | AddOp.sub =>
            match pySub acc rv with
            | Res.ok v => evalExprOps fuel rest v st1
            | Res.exn m => Option.some (Res.exn m, st1)
termination_by structural fuel => fuel

/-- `visit_expr`. -/
def evalExpr : Nat → Expr → St → ERes Value
  | 0, _, _ => Option.none
  | Nat.succ fuel, Expr.mk t ops, st =>
      resBind (evalTerm fuel t st) fun v st1 => evalExprOps fuel ops v st1
termination_by structural fuel => fuel

/-- Left-to-right evaluation of an expression list (function-call
arguments, list-literal elements). -/
def evalExprList : Nat → List Expr → St → ERes (List Value)
  | 0, _, _ => Option.none
  | Nat.succ fuel, es, st =>
    match es with
    | [] => Option.some (Res.ok [], st)
    | e :: rest =>
      resBind (evalExpr fuel e st) fun v st1 =>
        resBind (evalExprList fuel rest st1) fun vs st2 =>
          Option.some (Res.ok (v :: vs), st2)
termination_by structural fuel => fuel

/-- `visit_condition`: evaluate both sides, apply the comparison, and turn
a comparison `TypeError` into a recorded error with result `False`. -/
def evalCondition : Nat → Cond → St → ERes Bool
  | 0, _, _ => Option.none
  | Nat.succ fuel, c, st =>
    resBind (evalExpr fuel c.lhs st) fun lv st1 =>
      resBind (evalExpr fuel c.rhs st1) fun rv st2 =>
        let r : Res Bool :=
          match c.op with
          | CmpOp.ceq => Res.ok (pyEq lv rv)
          | CmpOp.cne => Res.ok (! pyEq lv rv)
          | CmpOp.cgt => pyGtR lv rv
          | CmpOp.clt => pyLtR lv rv
          | CmpOp.cge => pyGeR lv rv
          | CmpOp.cle => pyLeR lv rv
        match r with
        | Res.ok b => Option.some (Res.ok b, st2)
        | Res.exn m =>
            Option.some (Res.ok false, add_error st2
              ("Comparison failed between " ++ typeNameOf lv ++ " and " ++
                typeNameOf rv ++ ": " ++ m))
termination_by structural fuel => fuel

/-- The collection loop of `visit_conditions`: visit every child in order,
collecting condition results and logical operators into two lists. -/
def evalCondChildren :
    Nat → List CondChild → List Bool → List LOp → St → ERes (List Bool × List LOp)
  | 0, _, _, _, _ => Option.none
  | Nat.succ fuel, children, rs, os, st =>
    match children with
    | [] => Option.some (Res.ok (rs, os), st)
    | CondChild.cond c :: rest =>
        resBind (evalCondition fuel c st) fun b st1 =>
          evalCondChildren fuel rest (rs ++ [b]) os st1
    | CondChild.lop tok :: rest =>
        evalCondChildren fuel rest rs (os ++ [visit_logic_op st tok]) st
termination_by structural fuel => fuel

/-- `visit_conditions`: no children is `False`; a single child is visited
directly; otherwise all children are visited first (collecting results and
operators) and the collected results are combined afterwards. -/
def evalConditions : Nat → List CondChild → St → ERes Bool
  | 0, _, _ => Option.none
  | Nat.succ fuel, children, st =>
    match children with
    | [] => Option.some (Res.ok false, st)
    | [CondChild.cond c] => evalCondition fuel c st
    | [CondChild.lop _] => Option.some (Res.ok false, st)
    | _ =>
      resBind (evalCondChildren fuel children [] [] st) fun p st1 =>
        match p with
        | (rs, os) =>
          if os.isEmpty ∧ rs.length > 1 then
            Option.some (Res.ok (and_fold true rs), st1)
          else if rs.length = os.length + 1 then
            match rs with
            | r0 :: rtl => Option.some (Res.ok (combine_logic r0 (os.zip rtl)), st1)
            | [] => Option.some (Res.ok false, st1)
          else
            Option.some (Res.ok false,
              add_error st1 "Mismatch between conditions and logic operators")
termination_by structural fuel => fuel

/-- `visit_func_call`: resolve, evaluate the arguments left to right, check
the arity, cast the arguments, run the body in a fresh child of the
closure environment with neutral return flags, and restore the caller's
environment and flags afterwards (also on a raised exception). -/
def evalFuncCall : Nat → String → List Expr → St → ERes Value
  | 0, _, _, _ => Option.none
  | Nat.succ fuel, f, args, st =>
    let st0 := { st with used_variables := addToSet f st.used_variables }
    if st0.error_vars_list.contains f then Option.some (Res.ok Value.pynone, st0)
    else if ¬ env_is_function st0 st0.cur f then
      let st1 := add_error st0 ("Function \x27" ++ f ++ "\x27 is not defined")
      Option.some (Res.ok Value.pynone,
        { st1 with error_vars_list := st1.error_vars_list ++ [f] })
    else
      match env_get_func st0 st0.cur f with
      | Option.none =>
          Option.some (Res.ok Value.pynone,
            add_error st0 ("Function \x27" ++ f ++ "\x27 not found"))
      | Option.some fi =>
        resBind (evalExprList fuel args st0) fun argVals st1 =>
          if argVals.length ≠ fi.params.length then
            Option.some (Res.ok Value.pynone,
              add_error st1 ("Function \x27" ++ f ++ "\x27 expects " ++
                toString fi.params.length ++ " arguments but got " ++
                toString argVals.length))
          else
            match castArgsLoop st1 f fi.params argVals 0 with
            | (Option.none, st2) => Option.some (Res.ok Value.pynone, st2)
            | (Option.some cargs, st2) =>
              let pr := create_child_env st2 fi.envIdx
              let st3 := pr.1
              let childIdx := pr.2
              let st4 := bindParams st3 childIdx (fi.params.zip cargs)
              let savedCur := st4.cur
              let savedRet := st4.return_value
              let savedSR := st4.should_return
              let st5 := { st4 with cur := childIdx, return_value := Value.pynone, should_return := false }
              match execBlock fuel (st5.func_bodies.getD fi.bodyIdx []) st5 with
              | Option.none => Option.none
              | Option.some (Res.ok _, st6) =>
                  Option.some (Res.ok st6.return_value,
                    { st6 with cur := savedCur, return_value := savedRet, should_return := savedSR })
              | Option.some (Res.exn m, st6) =>
                  Option.some (Res.exn m,
                    { st6 with cur := savedCur, return_value := savedRet, should_return := savedSR })
termination_by structural fuel => fuel

/-- `visit_block`: statements run in order, and the walk stops before any
statement once `should_return` or `should_break` is set. -/
def execBlock : Nat → List Stmt → St → ERes Unit
  | 0, _, _ => Option.none
  | Nat.succ fuel, stmts, st =>
    match stmts with
    | [] => Option.some (Res.ok (), st)
    | s :: rest =>
        if st.should_return || st.should_break then Option.some (Res.ok (), st)
        else resBind (execStmt fuel s st) fun _ st1 => execBlock fuel rest st1
termination_by structural fuel => fuel

/-- The iteration loop of `visit_again_stmt`: check `should_break` before
each iteration, rebind the index variable (1-based) when one was named,
run the block, and stop after an iteration that set `should_break`. -/
def execLoopIter :
    Nat → List Stmt → Option String → Nat → Nat → St → ERes Unit
  | 0, _, _, _, _, _ => Option.none
  | Nat.succ fuel, body, idx, i, remaining, st =>
    match remaining with
    | 0 => Option.some (Res.ok (), st)
    | Nat.succ rem =>
      if st.should_break then Option.some (Res.ok (), st)
      else
        let st1 :=
          match idx with
          | Option.some x => env_define_var st st.cur x (Value.int ((i : Int) + 1))
          | Option.none => st
        resBind (execBlock fuel body st1) fun _ st2 =>
          if st2.should_break then Option.some (Res.ok (), st2)
          else execLoopIter fuel body idx (i + 1) rem st2
termination_by structural fuel => fuel

/-- Statement execution: the `visit_*` statement visitors. -/
def execStmt : Nat → Stmt → St → ERes Unit
  | 0, _, _ => Option.none
  | Nat.succ fuel, stmt, st =>
    match stmt with
    | Stmt.var_def _ty name initOpt =>
        -- `visit_var_def` reads the declared type from the `type_name`
        -- subtree's first token child; this grammar's subtree has no token
        -- children, so the source's `'int'` fallback is always taken and
        -- the membership check against ['int', 'float', 'str'] passes.
        let type_name := "int"
        if ¬ (["int", "float", "str"].contains type_name) then
          Option.some (Res.ok (),
            add_error st ("Invalid type name: \x27" ++ type_name ++ "\x27"))
        else if st.error_vars_list.contains name then Option.some (Res.ok (), st)
        else if env_is_defined st st.cur name then
          let st1 := add_error st ("Variable \x27" ++ name ++ "\x27 is already defined")
          Option.some (Res.ok (), { st1 with error_vars_list := st1.error_vars_list ++ [name] })
        else
          match initOpt with
          | Option.some e =>
            resBind (evalExpr fuel e st) fun v st1 =>
              let p :=
                match v with
                | Value.int _ => cast_type st1 v "int" name
                | Value.float _ => cast_type st1 v "float" name
                | _ => cast_type st1 v type_name name
              match p with
              | (Option.some cv, st2) =>
                  let st3 := env_define_var st2 st2.cur name cv
                  Option.some (Res.ok (),
                    { st3 with assigned_vars := addToSet name st3.assigned_vars, defined_vars := addToSet name st3.defined_vars })
              | (Option.none, st2) => Option.some (Res.ok (), st2)
          | Option.none =>
              let dv :=
                if type_name = "int" then Value.int 0
                else if type_name = "float" then Value.float 0
                else Value.str ""
              let st1 := env_define_var st st.cur name dv
              Option.some (Res.ok (),
                { st1 with defined_vars := addToSet name st1.defined_vars })
    | Stmt.const_def _ty name init =>
        -- same `type_name` extraction as `visit_var_def` (always 'int').
        let type_name := "int"
        if ¬ (["int", "float", "str"].contains type_name) then
          Option.some (Res.ok (),
            add_error st ("Invalid type name: \x27" ++ type_name ++ "\x27"))
        else if st.error_vars_list.contains name then Option.some (Res.ok (), st)
        else if env_is_defined st st.cur name then
          let st1 := add_error st ("Constant \x27" ++ name ++ "\x27 is already defined")
          Option.some (Res.ok (),
            { st1 with error_vars_list := st1.error_vars_list ++ [name] })
        else
          resBind (evalExpr fuel init st) fun v st1 =>
            let p :=
              match v with
              | Value.int _ => cast_type st1 v "int" name
              | Value.float _ => cast_type st1 v "float" name
              | _ => cast_type st1 v type_name name
            match p with
            | (Option.some cv, st2) =>
                let st3 := env_define_const st2 st2.cur name cv
                Option.some (Res.ok (),
                  { st3 with assigned_vars := addToSet name st3.assigned_vars, defined_vars := addToSet name st3.defined_vars })
            | (Option.none, st2) => Option.some (Res.ok (), st2)
    | Stmt.list_def name elems =>
        if st.error_vars_list.contains name then Option.some (Res.ok (), st)
        else if env_is_defined st st.cur name then
          let st1 := add_error st ("List \x27" ++ name ++ "\x27 is already defined")
          Option.some (Res.ok (),
            { st1 with error_vars_list := st1.error_vars_list ++ [name] })
        else
          resBind (evalExprList fuel elems st) fun vs st1 =>
            let st2 := env_define_var st1 st1.cur name (Value.list vs)
            Option.some (Res.ok (),
              { st2 with defined_vars := addToSet name st2.defined_vars, assigned_vars := addToSet name st2.assigned_vars })
    | Stmt.assignment name e =>
        resBind (evalExpr fuel e st) fun v st1 =>
          if st1.error_vars_list.contains name then Option.some (Res.ok (), st1)
          else if ¬ env_is_defined st1 st1.cur name then
            let st2 := env_define_var st1 st1.cur name v
            Option.some (Res.ok (),
              { st2 with defined_vars := addToSet name st2.defined_vars, assigned_vars := addToSet name st2.assigned_vars })
          else if env_is_constant st1 st1.cur name then
            Option.some (Res.ok (), add_error st1
              ("Cannot assign values to constants afterward: \x27" ++ name ++ "\x27"))
          else
            let current :=
              ((env_get_value st1 st1.cur name).getD (GotVal.val Value.pynone)).toValue
            if isNoneV current then
              Option.some (Res.ok (),
                add_error st1 ("Variable \x27" ++ name ++ "\x27 has no value"))
            else
              -- actual_type: `type(current_value).__name__`, which the
              -- source's isinstance chain re-derives for str/int/float.
              match cast_type st1 v (typeNameOf current) name with
              | (Option.some nv, st2) =>
                  match env_set_value st2 st2.cur name nv with
                  | Except.ok st3 =>
                      Option.some (Res.ok (),
                        { st3 with assigned_vars := addToSet name st3.assigned_vars })
                  | Except.error m => Option.some (Res.exn m, st2)
              | (Option.none, st2) => Option.some (Res.ok (), st2)
    | Stmt.cause_stmt conds ifBlock orBlock =>
        resBind (evalConditions fuel conds st) fun b st1 =>
          if b then execBlock fuel ifBlock st1
          else
            match orBlock with
            | Option.some ob => execBlock fuel ob st1
            | Option.none => Option.some (Res.ok (), st1)
    | Stmt.again_stmt count idx body =>
        resBind (evalExpr fuel count st) fun tv st1 =>
          let timesOk : Option Nat :=
            match tv with
            | Value.int n => if n < 0 then Option.none else Option.some n.toNat
            | Value.float q => if q < 0 then Option.none else Option.some q.floor.toNat
            | _ => Option.none
          match timesOk with
          | Option.none =>
              Option.some (Res.ok (),
                add_error st1 "Loop times must be a non-negative number")
          | Option.some n =>
            let st2 := { st1 with should_break := false }
            resBind (execLoopIter fuel body idx 0 n st2) fun _ st3 =>
              let st4 :=
                match idx with
                | Option.some x =>
                    if env_is_defined st3 st3.cur x then
                      let sc := getScope st3 st3.cur
                      setScope st3 st3.cur { sc with vars := assocRemove x sc.vars }
                    else st3
                | Option.none => st3
              Option.some (Res.ok (), { st4 with should_break := false })
    | Stmt.rep_stop => Option.some (Res.ok (), { st with should_break := true })
    | Stmt.func_def name params body =>
        if st.error_vars_list.contains name then Option.some (Res.ok (), st)
        else if env_is_defined st st.cur name then
          let st1 := add_error st ("Function \x27" ++ name ++ "\x27 is already defined")
          Option.some (Res.ok (),
            { st1 with error_vars_list := st1.error_vars_list ++ [name] })
        else
          let ps := params.map (fun p => (p.2, tyStrOf p.1))
          let fr : FuncRec :=
            { params := ps, bodyIdx := st.func_bodies.length, envIdx := st.cur }
          let st1 := { st with func_bodies := st.func_bodies ++ [body] }
          let st2 := env_define_func st1 st1.cur name fr
          Option.some (Res.ok (),
            { st2 with defined_vars := addToSet name st2.defined_vars })
    | Stmt.func_call_stmt f args =>
        resBind (evalFuncCall fuel f args st) fun _ st1 =>
          Option.some (Res.ok (), st1)
    | Stmt.back_stmt eOpt =>
        match eOpt with
        | Option.some e =>
            resBind (evalExpr fuel e st) fun v st1 =>
              Option.some (Res.ok (),
                { st1 with return_value := v, should_return := true })
        | Option.none =>
            Option.some (Res.ok (),
              { st with return_value := Value.pynone, should_return := true })
termination_by structural fuel => fuel

end

/-! ## The top-level statement loop (`RuntimeChecker.execute`) -/

/-- The marker test of the exception handlers in `execute`: an exception
whose message looks like an internal dump is not recorded. -/
def containsMarker (m : String) : Bool :=
  ["Tree(", "Token(", "visit_"].any (fun mk => strContainsSub m mk)

/-- One top-level statement: set the current line (the parse trees carry no
position metadata, so the source falls back to the statement's ordinal),
execute, and record a raised exception as an error instead of aborting. -/
def execTopStmt (fuel : Nat) (lineIdx : Nat) (s : Stmt) (st : St) : Option St :=
  let st0 := { st with current_line_num := lineIdx + 1 }
  match execStmt fuel s st0 with
  | Option.none => Option.none
  | Option.some (Res.ok _, st1) => Option.some st1
  | Option.some (Res.exn m, st1) =>
      Option.some (if containsMarker m then st1 else add_error st1 m)

/-- The statement loop of `execute`, visiting every top-level statement in
order whatever the accumulated errors and flags. -/
def runProgramAux (fuel : Nat) : Nat → List Stmt → St → Option St
  | _, [], st => Option.some st
  | i, s :: rest, st =>
      match execTopStmt fuel i s st with
      | Option.none => Option.none
      | Option.some st1 => runProgramAux fuel (i + 1) rest st1

/-- Run a whole program. -/
def runProgram (fuel : Nat) (prog : List Stmt) (st : St) : Option St :=
  runProgramAux fuel 0 prog st

/-- The root scope built by `RuntimeChecker.__init__`: the four
pseudo-object dictionaries as variables. -/
def rootScope : Scope where
  vars :=
    [("out", Value.builtin [("Info", "out.Info"), ("Warn", "out.Warn"), ("Error", "out.Error")]),
     ("rep", Value.builtin [("stop", "rep.stop")]),
     ("now", Value.builtin [("repeat", "now.repeat")]),
     ("back", Value.builtin [("value", "back.value")])]
  constants := []
  functions := []
  parent := Option.none

/-- The state `RuntimeChecker.__init__` builds: one root scope, everything
else empty. -/
def initSt : St where
  scopes := [rootScope]
  cur := 0
  used_variables := []
  defined_vars := []
  assigned_vars := []
  warned_vars := []
  errors := []
  error_vars_list := []
  has_output := false
  should_break := false
  return_value := Value.pynone
  should_return := false
  func_bodies := []
  original_lines := []
  current_line_num := 0

/-! ## Notation-free shorthands for concrete programs -/

mutual

/-- Structural (syntactic) equality test on values, used to state concrete
observations (unlike `pyEq`, it distinguishes `int 3` from `float 3`). -/
def beqValue : Value → Value → Bool
  | Value.int a, Value.int b => a == b
  | Value.float a, Value.float b => a == b
  | Value.str a, Value.str b => a == b
  | Value.list a, Value.list b => beqValueList a b
  | Value.pynone, Value.pynone => true
  | Value.builtin a, Value.builtin b => a == b
  | Value.funcv a, Value.funcv b => a == b
  | _, _ => false

/-- Elementwise structural equality on value lists. -/
def beqValueList : List Value → List Value → Bool
  | [], [] => true
  | a :: as_, b :: bs => beqValue a b && beqValueList as_ bs
  | _, _ => false

end

instance : BEq Value := ⟨beqValue⟩

/-- Structural equality on lookup results. -/
def beqGotVal : GotVal → GotVal → Bool
  | GotVal.val a, GotVal.val b => a == b
  | GotVal.func a, GotVal.func b => a == b
  | _, _ => false

instance : BEq GotVal := ⟨beqGotVal⟩

/-- The expression consisting of a single factor. -/
def fExpr (f : Factor) : Expr := Expr.mk (Term.mk f []) []

/-- An integer-literal expression. -/
def intE (n : Int) : Expr := fExpr (Factor.numInt n)

/-- A string-literal expression. -/
def strE (s : String) : Expr := fExpr (Factor.strLit s)

/-- A bare-identifier expression. -/
def identE (x : String) : Expr := fExpr (Factor.ident x)

/-! ## Environment lemmas

The walks are written with an explicit step budget; the lemmas below show
the budget `i + 1` is exact on every chain of decreasing parent links and
relate `get_value`, `set_value` and `is_defined` on such chains. -/

theorem getScope_congr {st st' : St} (h : st.scopes = st'.scopes) (i : Nat) :
    getScope st i = getScope st' i := by
  simp [getScope, h]

theorem getValueW_congr {st st' : St} (h : st.scopes = st'.scopes) :
    ∀ (f i : Nat) (x : String), getValueW st f i x = getValueW st' f i x := by
  intro f
  induction f with
  | zero => intro i x; simp [getValueW]
  | succ f ih =>
      intro i x
      simp only [getValueW, getScope_congr h i]
      cases hc : ((getScope st' i).constants.lookup x) <;>
        cases hv : ((getScope st' i).vars.lookup x) <;>
        cases hf : ((getScope st' i).functions.lookup x) <;>
        cases hp : (getScope st' i).parent <;> simp [ih]

theorem isDefinedW_congr {st st' : St} (h : st.scopes = st'.scopes) :
    ∀ (f i : Nat) (x : String), isDefinedW st f i x = isDefinedW st' f i x := by
  intro f
  induction f with
  | zero => intro i x; simp [isDefinedW]
  | succ f ih =>
      intro i x
      simp only [isDefinedW, getScope_congr h i]
      cases hp : (getScope st' i).parent <;> simp [ih]

theorem env_get_value_congr {st st' : St} (h : st.scopes = st'.scopes)
    (i : Nat) (x : String) : env_get_value st i x = env_get_value st' i x :=
  getValueW_congr h (i + 1) i x

theorem env_is_defined_congr {st st' : St} (h : st.scopes = st'.scopes)
    (i : Nat) (x : String) : env_is_defined st i x = env_is_defined st' i x :=
  isDefinedW_congr h (i + 1) i x

theorem getValueW_fuel_irrel (st : St) (x : String) :
    ∀ (i f g : Nat), i < f → i < g → getValueW st f i x = getValueW st g i x := by
  intro i
  induction i using Nat.strong_induction_on with
  | _ i IH =>
    intro f g hf hg
    obtain ⟨f', rfl⟩ : ∃ f', f = f' + 1 := ⟨f - 1, by omega⟩
    obtain ⟨g', rfl⟩ : ∃ g', g = g' + 1 := ⟨g - 1, by omega⟩
    simp only [getValueW]
    cases hp : (getScope st i).parent with
    | none => rfl
    | some j =>
        by_cases hji : j < i
        · have := IH j hji f' g' (by omega) (by omega)
          simp [hji, this]
        · simp [hji]

theorem getValueW_stable (st : St) (x : String) (f i : Nat) (h : i < f) :
    getValueW st f i x = env_get_value st i x :=
  getValueW_fuel_irrel st x i f (i + 1) h (by omega)

theorem isDefinedW_fuel_irrel (st : St) (x : String) :
    ∀ (i f g : Nat), i < f → i < g → isDefinedW st f i x = isDefinedW st g i x := by
  intro i
  induction i using Nat.strong_induction_on with
  | _ i IH =>
    intro f g hf hg
    obtain ⟨f', rfl⟩ : ∃ f', f = f' + 1 := ⟨f - 1, by omega⟩
    obtain ⟨g', rfl⟩ : ∃ g', g = g' + 1 := ⟨g - 1, by omega⟩
    simp only [isDefinedW]
    cases hp : (getScope st i).parent with
    | none => rfl
    | some j =>
        by_cases hji : j < i
        · have := IH j hji f' g' (by omega) (by omega)
          simp [hji, this]
        · simp [hji]

theorem isDefinedW_stable (st : St) (x : String) (f i : Nat) (h : i < f) :
    isDefinedW st f i x = env_is_defined st i x :=
  isDefinedW_fuel_irrel st x i f (i + 1) h (by omega)

theorem setValueW_fuel_irrel (st : St) (x : String) (v : Value) :
    ∀ (i f g : Nat), i < f → i < g → setValueW st f i x v = setValueW st g i x v := by
  intro i
  induction i using Nat.strong_induction_on with
  | _ i IH =>
    intro f g hf hg
    obtain ⟨f', rfl⟩ : ∃ f', f = f' + 1 := ⟨f - 1, by omega⟩
    obtain ⟨g', rfl⟩ : ∃ g', g = g' + 1 := ⟨g - 1, by omega⟩
    simp only [setValueW]
    cases hp : (getScope st i).parent with
    | none => rfl
    | some j =>
        by_cases hji : j < i
        · have := IH j hji f' g' (by omega) (by omega)
          simp [hji, this]
        · simp [hji]

theorem setValueW_stable (st : St) (x : String) (v : Value) (f i : Nat) (h : i < f) :
    setValueW st f i x v = env_set_value st i x v :=
  setValueW_fuel_irrel st x v i f (i + 1) h (by omega)

/-- The name `x` resolves through the parent chain from scope `i` to a
variables-table entry of scope `j` holding `w`, following exactly the walk
order of `Environment.get_value` (constants before variables before
functions at every scope, then the parent). -/
inductive ResolvesVar (st : St) (x : String) : Nat → Nat → Value → Prop where
  | here (i : Nat) (w : Value)
      (hc : (getScope st i).constants.lookup x = Option.none)
      (hv : (getScope st i).vars.lookup x = Option.some w) :
      ResolvesVar st x i i w
  | there (i j k : Nat) (w : Value)
      (hc : (getScope st i).constants.lookup x = Option.none)
      (hv : (getScope st i).vars.lookup x = Option.none)
      (hf : (getScope st i).functions.lookup x = Option.none)
      (hp : (getScope st i).parent = Option.some j)
      (hji : j < i)
      (htl : ResolvesVar st x j k w) :
      ResolvesVar st x i k w

theorem resolves_getValue {st : St} {x : String} {i j : Nat} {w : Value}
    (h : ResolvesVar st x i j w) :
    env_get_value st i x = Option.some (GotVal.val w) := by
  induction h with
  | here i w hc hv =>
      simp [env_get_value, getValueW, hc, hv]
  | there i j k w hc hv hf hp hji htl ih =>
      simp only [env_get_value, getValueW, hc, hv, hf, hp]
      simp only [hji, if_true]
      rw [getValueW_stable st x i j (by omega)]
      exact ih

theorem resolves_isDefined {st : St} {x : String} {i j : Nat} {w : Value}
    (h : ResolvesVar st x i j w) :
    env_is_defined st i x = true := by
  induction h with
  | here i w hc hv =>
      simp [env_is_defined, isDefinedW, assocHas, hv]
  | there i j k w hc hv hf hp hji htl ih =>
      simp only [env_is_defined, isDefinedW, assocHas, hc, hv, hf, hp]
      simp only [Option.isSome_none, Bool.or_self, Bool.false_or]
      simp only [hji, if_true]
      rw [isDefinedW_stable st x i j (by omega)]
      exact ih

theorem resolves_not_constant {st : St} {x : String} {i j : Nat} {w : Value}
    (h : ResolvesVar st x i j w) :
    env_is_constant st i x = false := by
  cases h with
  | here i w hc hv => simp [env_is_constant, assocHas, hc]
  | there i j k w hc hv hf hp hji htl => simp [env_is_constant, assocHas, hc]

theorem resolves_scope_lt {st : St} {x : String} {i j : Nat} {w : Value}
    (h : ResolvesVar st x i j w) : j < st.scopes.length := by
  induction h with
  | here i w hc hv =>
      by_cases hl : i < st.scopes.length
      · exact hl
      · exfalso
        have : getScope st i = Scope.empty := by
          simp [getScope, List.getElem?_eq_none (by omega : st.scopes.length ≤ i)]
        rw [this] at hv
        simp [Scope.empty] at hv
  | there _ _ _ _ _ _ _ _ _ _ ih => exact ih

theorem assocSet_lookup_self (k : String) (v : α) :
    ∀ l : List (String × α), (assocSet k v l).lookup k = Option.some v := by
  intro l
  induction l with
  | nil => simp [assocSet, List.lookup]
  | cons p rest ih =>
      obtain ⟨a, b⟩ := p
      by_cases h : a = k
      · subst h
        simp [assocSet, List.lookup]
      · have hba : (k == a) = false := beq_eq_false_iff_ne.mpr (Ne.symm h)
        simp [assocSet, h, List.lookup, hba, ih]

theorem resolves_le {st : St} {x : String} {i j : Nat} {w : Value}
    (h : ResolvesVar st x i j w) : j ≤ i := by
  induction h with
  | here i w hc hv => exact Nat.le_refl i
  | there i j k w hc hv hf hp hji htl ih => omega

theorem lookup_scope_lt {st : St} {i : Nat} {x : String} {w : Value}
    (hv : (getScope st i).vars.lookup x = Option.some w) :
    i < st.scopes.length := by
  by_cases hl : i < st.scopes.length
  · exact hl
  · exfalso
    have hnone : st.scopes[i]? = Option.none :=
      List.getElem?_eq_none (by omega)
    rw [getScope, hnone] at hv
    simp [Scope.empty, List.lookup] at hv

theorem resolves_setValue {st : St} {x : String} {i j : Nat} {w : Value}
    (h : ResolvesVar st x i j w) (v : Value) :
    env_set_value st i x v =
      Except.ok (setScope st j
        { getScope st j with vars := assocSet x v (getScope st j).vars }) := by
  induction h with
  | here i w hc hv =>
      simp [env_set_value, setValueW, assocHas, hc, hv]
  | there i j k w hc hv hf hp hji htl ih =>
      simp only [env_set_value, setValueW, assocHas, hc, hv, hp]
      simp only [Option.isSome_none, Bool.false_eq_true, if_false]
      simp only [hji, if_true, resolves_isDefined htl, if_true]
      rw [setValueW_stable st x v i j (by omega)]
      exact ih

theorem resolves_congr {st st' : St} (hsc : st.scopes = st'.scopes)
    {x : String} {i j : Nat} {w : Value} (h : ResolvesVar st x i j w) :
    ResolvesVar st' x i j w := by
  induction h with
  | here i w hc hv =>
      exact ResolvesVar.here i w (by rw [← getScope_congr hsc]; exact hc)
        (by rw [← getScope_congr hsc]; exact hv)
  | there i j k w hc hv hf hp hji htl ih =>
      exact ResolvesVar.there i j k w (by rw [← getScope_congr hsc]; exact hc)
        (by rw [← getScope_congr hsc]; exact hv)
        (by rw [← getScope_congr hsc]; exact hf)
        (by rw [← getScope_congr hsc]; exact hp) hji ih

theorem resolves_get_after_set {st : St} {x : String} {i j : Nat} {w : Value}
    (h : ResolvesVar st x i j w) (v : Value) :
    env_get_value
      (setScope st j { getScope st j with vars := assocSet x v (getScope st j).vars })
      i x = Option.some (GotVal.val v) := by
  induction h with
  | here i w hc hv =>
      have hlen : i < st.scopes.length := lookup_scope_lt hv
      have hsc : getScope (setScope st i { getScope st i with
          vars := assocSet x v (getScope st i).vars }) i
          = { getScope st i with vars := assocSet x v (getScope st i).vars } := by
        simp [getScope, setScope, List.getElem?_set_eq_of_lt _ hlen]
      simp [env_get_value, getValueW, hsc, hc, assocSet_lookup_self]
  | there i j k w hc hv hf hp hji htl ih =>
      have hik : i ≠ k := by
        have := resolves_le htl
        omega
      have hsc : getScope (setScope st k { getScope st k with
          vars := assocSet x v (getScope st k).vars }) i = getScope st i := by
        simp [getScope, setScope, List.getElem?_set_ne (Ne.symm hik)]
      simp only [env_get_value, getValueW, hsc, hc, hv, hf, hp]
      simp only [hji, if_true]
      rw [getValueW_stable _ x i j (by omega)]
      exact ih

theorem add_error_mem (st : St) (m : String) : m ∈ (add_error st m).errors := by
  unfold add_error
  split_ifs with h
  · exact List.mem_of_elem_eq_true h
  · simp

theorem add_error_append (st : St) (m : String) (h : ¬ m ∈ st.errors) :
    (add_error st m).errors = st.errors ++ [m] := by
  unfold add_error
  split_ifs with h2
  · exact absurd (List.mem_of_elem_eq_true h2) h
  · rfl

theorem castFail_state (st : St) (v : Value) (t n i : String) :
    (castFail st v t n i).2.scopes = st.scopes ∧ (castFail st v t n i).2.cur = st.cur := by
  unfold castFail add_error
  split_ifs <;> simp

theorem castFail_fst (st : St) (v : Value) (t n i : String) :
    (castFail st v t n i).1 = Option.none := by
  unfold castFail
  split_ifs <;> simp

theorem castFail_errors (st : St) (v : Value) (t n i : String) :
    (castFail st v t n i).2.errors = (add_error st (castErrText v t n i)).errors := by
  unfold castFail
  split_ifs <;> simp

theorem cast_type_state (st : St) (v : Value) (ty vn : String) :
    (cast_type st v ty vn).2.scopes = st.scopes ∧ (cast_type st v ty vn).2.cur = st.cur := by
  by_cases hp : vn ≠ "" ∧ vn ∈ st.error_vars_list
  · simp [cast_type, hp]
  · by_cases h1 : ty = "int"
    · subst h1
      cases v with
      | str s =>
          by_cases hg : intLikeStr s
          · simp [cast_type, hp, hg]
          · simp [cast_type, hp, hg, castFail_state]
      | float q =>
          by_cases hg : q.den = 1
          · simp [cast_type, hp, hg]
          · simp [cast_type, hp, hg, castFail_state]
      | int n => simp [cast_type, hp]
      | list xs => simp [cast_type, hp, castFail_state]
      | pynone => simp [cast_type, hp, castFail_state]
      | builtin ms => simp [cast_type, hp, castFail_state]
      | funcv f => simp [cast_type, hp, castFail_state]
    · by_cases h2 : ty = "float"
      · subst h2
        cases v with
        | str s =>
            cases hq : parseFloatStr s with
            | none => simp [cast_type, hp, h1, hq, castFail_state]
            | some q => simp [cast_type, hp, h1, hq]
        | int n => simp [cast_type, hp, h1]
        | float q => simp [cast_type, hp, h1]
        | list xs => simp [cast_type, hp, h1, castFail_state]
        | pynone => simp [cast_type, hp, h1, castFail_state]
        | builtin ms => simp [cast_type, hp, h1, castFail_state]
        | funcv f => simp [cast_type, hp, h1, castFail_state]
      · by_cases h3 : ty = "str"
        · subst h3
          simp [cast_type, hp, h1, h2]
        · by_cases hv : vn = ""
          · simp [cast_type, hp, h1, h2, h3, hv, add_error]
            split_ifs <;> simp
          · simp [cast_type, hp, h1, h2, h3, hv, add_error]
            split_ifs <;> simp

theorem cast_type_ok_type (st : St) (v : Value) (ty vn : String) (nv : Value)
    (h : (cast_type st v ty vn).1 = Option.some nv) : typeNameOf nv = ty := by
  by_cases hp : vn ≠ "" ∧ vn ∈ st.error_vars_list
  · simp [cast_type, hp] at h
  · by_cases h1 : ty = "int"
    · subst h1
      cases v with
      | str s =>
          by_cases hg : intLikeStr s
          · simp [cast_type, hp, hg] at h
            subst h; rfl
          · simp [cast_type, hp, hg, castFail_fst] at h
      | float q =>
          by_cases hg : q.den = 1
          · simp [cast_type, hp, hg] at h
            subst h; rfl
          · simp [cast_type, hp, hg, castFail_fst] at h
      | int n =>
          simp [cast_type, hp] at h
          subst h; rfl
      | list xs => simp [cast_type, hp, castFail_fst] at h
      | pynone => simp [cast_type, hp, castFail_fst] at h
      | builtin ms => simp [cast_type, hp, castFail_fst] at h
      | funcv f => simp [cast_type, hp, castFail_fst] at h
    · by_cases h2 : ty = "float"
      · subst h2
        cases v with
        | str s =>
            cases hq : parseFloatStr s with
            | none => simp [cast_type, hp, h1, hq, castFail_fst] at h
            | some q =>
                simp [cast_type, hp, h1, hq] at h
                subst h; rfl
        | int n =>
            simp [cast_type, hp, h1] at h
            subst h; rfl
        | float q =>
            simp [cast_type, hp, h1] at h
            subst h; rfl
        | list xs => simp [cast_type, hp, h1, castFail_fst] at h
        | pynone => simp [cast_type, hp, h1, castFail_fst] at h
        | builtin ms => simp [cast_type, hp, h1, castFail_fst] at h
        | funcv f => simp [cast_type, hp, h1, castFail_fst] at h
      · by_cases h3 : ty = "str"
        · subst h3
          simp [cast_type, hp, h1, h2] at h
          subst h; rfl
        · simp [cast_type, hp, h1, h2, h3] at h

theorem cast_type_fail_errors (st : St) (v : Value) (ty vn : String)
    (hp : ¬ (vn ≠ "" ∧ vn ∈ st.error_vars_list))
    (h : (cast_type st v ty vn).1 = Option.none) :
    ∃ m, (cast_type st v ty vn).2.errors = (add_error st m).errors := by
  by_cases h1 : ty = "int"
  · subst h1
    cases v with
    | str s =>
        by_cases hg : intLikeStr s
        · simp [cast_type, hp, hg] at h
        · have hb : cast_type st (Value.str s) "int" vn
              = castFail st (Value.str s) "int" vn
                ("String \x27" ++ s ++ "\x27 cannot be converted to int") := by
            simp [cast_type, hp, hg]
          rw [hb]
          exact ⟨_, castFail_errors st _ _ _ _⟩
    | float q =>
        by_cases hg : q.den = 1
        · simp [cast_type, hp, hg] at h
        · have hb : cast_type st (Value.float q) "int" vn
              = castFail st (Value.float q) "int" vn
                ("Float \x27" ++ ratFloatStr q ++
                  "\x27 cannot be converted to int without loss of precision") := by
            simp [cast_type, hp, hg]
          rw [hb]
          exact ⟨_, castFail_errors st _ _ _ _⟩
    | int n => simp [cast_type, hp] at h
    | list xs =>
        have hb : cast_type st (Value.list xs) "int" vn
            = castFail st (Value.list xs) "int" vn
              ("int() argument must be a string, a bytes-like object or a real number, not \x27" ++
                typeNameOf (Value.list xs) ++ "\x27") := by
          simp [cast_type, hp]
        rw [hb]
        exact ⟨_, castFail_errors st _ _ _ _⟩
    | pynone =>
        have hb : cast_type st Value.pynone "int" vn
            = castFail st Value.pynone "int" vn
              ("int() argument must be a string, a bytes-like object or a real number, not \x27" ++
                typeNameOf Value.pynone ++ "\x27") := by
          simp [cast_type, hp]
        rw [hb]
        exact ⟨_, castFail_errors st _ _ _ _⟩
    | builtin ms =>
        have hb : cast_type st (Value.builtin ms) "int" vn
            = castFail st (Value.builtin ms) "int" vn
              ("int() argument must be a string, a bytes-like object or a real number, not \x27" ++
                typeNameOf (Value.builtin ms) ++ "\x27") := by
          simp [cast_type, hp]
        rw [hb]
        exact ⟨_, castFail_errors st _ _ _ _⟩
    | funcv f =>
        have hb : cast_type st (Value.funcv f) "int" vn
            = castFail st (Value.funcv f) "int" vn
              ("int() argument must be a string, a bytes-like object or a real number, not \x27" ++
                typeNameOf (Value.funcv f) ++ "\x27") := by
          simp [cast_type, hp]
        rw [hb]
        exact ⟨_, castFail_errors st _ _ _ _⟩
  · by_cases h2 : ty = "float"
    · subst h2
      cases v with
      | str s =>
          cases hq : parseFloatStr s with
          | none =>
              have hb : cast_type st (Value.str s) "float" vn
                  = castFail st (Value.str s) "float" vn
                    ("String \x27" ++ s ++ "\x27 cannot be converted to float") := by
                simp [cast_type, hp, h1, hq]
              rw [hb]
              exact ⟨_, castFail_errors st _ _ _ _⟩
          | some q => simp [cast_type, hp, h1, hq] at h
      | int n => simp [cast_type, hp, h1] at h
      | float q => simp [cast_type, hp, h1] at h
      | list xs =>
          have hb : cast_type st (Value.list xs) "float" vn
              = castFail st (Value.list xs) "float" vn
                ("float() argument must be a string or a real number, not \x27" ++
                  typeNameOf (Value.list xs) ++ "\x27") := by
            simp [cast_type, hp, h1]
          rw [hb]
          exact ⟨_, castFail_errors st _ _ _ _⟩
      | pynone =>
          have hb : cast_type st Value.pynone "float" vn
              = castFail st Value.pynone "float" vn
                ("float() argument must be a string or a real number, not \x27" ++
                  typeNameOf Value.pynone ++ "\x27") := by
            simp [cast_type, hp, h1]
          rw [hb]
          exact ⟨_, castFail_errors st _ _ _ _⟩
      | builtin ms =>
          have hb : cast_type st (Value.builtin ms) "float" vn
              = castFail st (Value.builtin ms) "float" vn
                ("float() argument must be a string or a real number, not \x27" ++
                  typeNameOf (Value.builtin ms) ++ "\x27") := by
            simp [cast_type, hp, h1]
          rw [hb]
          exact ⟨_, castFail_errors st _ _ _ _⟩
      | funcv f =>
          have hb : cast_type st (Value.funcv f) "float" vn
              = castFail st (Value.funcv f) "float" vn
                ("float() argument must be a string or a real number, not \x27" ++
                  typeNameOf (Value.funcv f) ++ "\x27") := by
            simp [cast_type, hp, h1]
          rw [hb]
          exact ⟨_, castFail_errors st _ _ _ _⟩
    · by_cases h3 : ty = "str"
      · simp [cast_type, hp, h1, h2, h3] at h
      · refine ⟨"Unsupported type: \x27" ++ ty ++ "\x27" ++
          (if vn ≠ "" then " for variable \x27" ++ vn ++ "\x27" else ""), ?_⟩
        by_cases hv : vn = ""
        · simp [cast_type, hp, h1, h2, h3, hv]
        · have hnv : vn ∉ st.error_vars_list := fun hm => hp ⟨hv, hm⟩
          simp [cast_type, hp, h1, h2, h3, hv, hnv]

theorem get_after_define_var (st : St) (i : Nat) (x : String) (v : Value)
    (hc : (getScope st i).constants.lookup x = Option.none)
    (hlen : i < st.scopes.length) :
    env_get_value (env_define_var st i x v) i x = Option.some (GotVal.val v) := by
  have hsc : getScope (env_define_var st i x v) i
      = { getScope st i with vars := assocSet x v (getScope st i).vars } := by
    simp [env_define_var, getScope, setScope, List.getElem?_set_eq_of_lt _ hlen]
  simp [env_get_value, getValueW, hsc, hc, assocSet_lookup_self]

/-! ## The verified properties -/

/-- C6: For every division whose right operand evaluates to `0`, the error
`Division by zero` is recorded, the term containing the division evaluates
to the safe default `0` on the spot (the remaining factors of the term are
not applied), and the top-level statement loop continues with the following
statements instead of aborting. -/
theorem C6_division_by_zero_records_error_and_continues
    (fuel : Nat) (rest : List (MulOp × Factor)) (acc : Value) (g : Factor)
    (st st1 : St) (z : Value) (i : Nat) (s : Stmt) (prog : List Stmt)
    (st2 st3 : St)
    (hg : evalFactor fuel g st = Option.some (Res.ok z, st1))
    (hz : isPyZero z = true)
    (hs : execTopStmt fuel i s st2 = Option.some st3) :
    evalTermOps (fuel + 1) ((MulOp.div, g) :: rest) acc st
        = Option.some (Res.ok (Value.int 0), add_error st1 "Division by zero")
      ∧ "Division by zero" ∈ (add_error st1 "Division by zero").errors
      ∧ runProgramAux fuel i (s :: prog) st2 = runProgramAux fuel (i + 1) prog st3 := by
  refine ⟨?_, add_error_mem st1 "Division by zero", ?_⟩
  · simp [evalTermOps, resBind, hg, hz]
  · simp [runProgramAux, hs]

set_option maxHeartbeats 1600000 in
/-- Witness for C6 at `5 / 0 * 3` followed by a further statement. -/
theorem C6_witness :
    evalTermOps 6 [(MulOp.div, Factor.numInt 0), (MulOp.mul, Factor.numInt 3)]
        (Value.int 5) initSt
        = Option.some (Res.ok (Value.int 0), add_error initSt "Division by zero")
      ∧ "Division by zero" ∈ (add_error initSt "Division by zero").errors
      ∧ runProgramAux 5 0 [Stmt.rep_stop] initSt
        = runProgramAux 5 1 [] { initSt with current_line_num := 1, should_break := true } :=
  C6_division_by_zero_records_error_and_continues 5
    [(MulOp.mul, Factor.numInt 3)] (Value.int 5) (Factor.numInt 0) initSt initSt
    (Value.int 0) 0 Stmt.rep_stop [] initSt
    { initSt with current_line_num := 1, should_break := true }
    (by rfl) (by rfl) (by rfl)

/-- C8: once `rep.stop` sets `should_break` inside an `Again` loop body,
block execution stops before every further statement of the current block;
the loop runs no further iterations however large the remaining count; and
a completed `Again` statement absorbs the flag, leaving it `false`. -/
theorem C8_rep_stop_breaks_and_loop_absorbs :
    (∀ (fuel : Nat) (rest : List Stmt) (st : St),
        st.should_return = false → st.should_break = false →
        execBlock (fuel + 2) (Stmt.rep_stop :: rest) st
          = Option.some (Res.ok (), { st with should_break := true }))
    ∧ (∀ (fuel : Nat) (body : List Stmt) (idx : Option String) (i n : Nat) (st : St),
        st.should_break = true →
        execLoopIter (fuel + 1) body idx i (n + 1) st = Option.some (Res.ok (), st))
    ∧ (∀ (fuel : Nat) (count : Expr) (idx : Option String) (body : List Stmt)
        (st st1 st2 : St) (m : Int),
        evalExpr fuel count st = Option.some (Res.ok (Value.int m), st1) →
        0 ≤ m →
        execStmt (fuel + 1) (Stmt.again_stmt count idx body) st
          = Option.some (Res.ok (), st2) →
        st2.should_break = false) := by
  refine ⟨?_, ?_, ?_⟩
  · intro fuel rest st h1 h2
    simp only [execBlock, h1, h2, execStmt, resBind, Bool.or_self, Bool.false_eq_true,
      if_false, reduceIte]
    cases rest with
    | nil => simp [execBlock]
    | cons s r => simp [execBlock]
  · intro fuel body idx i n st h
    simp [execLoopIter, h]
  · intro fuel count idx body st st1 st2 m he hm hex
    simp only [execStmt, resBind, he] at hex
    have hneg : ¬ (m < 0) := by omega
    simp only [hneg, if_false, reduceIte] at hex
    rcases hE : execLoopIter fuel body idx 0 m.toNat { st1 with should_break := false }
      with _ | ⟨r, st3⟩
    · rw [hE] at hex
      simp [resBind] at hex
    · rw [hE] at hex
      cases r with
      | exn msg => simp [resBind] at hex
      | ok u =>
          simp only [resBind, Option.some.injEq, Prod.mk.injEq] at hex
          rw [← hex.2]

set_option maxHeartbeats 1600000 in
/-- Witness for C8: a block starting with `rep.stop`, a loop with a large
remaining count and an already-set flag, and a completed three-iteration
loop whose body breaks. -/
theorem C8_witness :
    execBlock 7 [Stmt.rep_stop, Stmt.assignment "k" (intE 99)] initSt
        = Option.some (Res.ok (), { initSt with should_break := true })
      ∧ execLoopIter 6 [Stmt.assignment "k" (intE 99)] Option.none 0 1000000
          { initSt with should_break := true }
        = Option.some (Res.ok (), { initSt with should_break := true })
      ∧ initSt.should_break = false :=
  ⟨C8_rep_stop_breaks_and_loop_absorbs.1 5 [Stmt.assignment "k" (intE 99)] initSt rfl rfl,
   C8_rep_stop_breaks_and_loop_absorbs.2.1 5 [Stmt.assignment "k" (intE 99)]
     Option.none 0 999999 { initSt with should_break := true } rfl,
   C8_rep_stop_breaks_and_loop_absorbs.2.2 5 (intE 3) Option.none [Stmt.rep_stop]
     initSt initSt initSt 3 (by rfl) (by omega) (by rfl)⟩

/-- A block whose entry state has `should_return` or `should_break` set
executes no statement and returns the state unchanged. -/
theorem execBlock_skip (fuel : Nat) (stmts : List Stmt) (st : St)
    (h : st.should_return = true ∨ st.should_break = true) :
    execBlock (fuel + 1) stmts st = Option.some (Res.ok (), st) := by
  cases stmts with
  | nil => simp [execBlock]
  | cons s rest =>
      rcases h with h | h <;> simp [execBlock, h]

/-- C10: after a top-level `back.value`, `should_return` is set and stays
set; the top-level loop still visits every following statement; the
statement sequence of any block entered afterwards (a `Cause` branch, and
hence an `Again` body through `visit_block`) is skipped entirely; a
function call executes its body from a state whose flag is reset to
`false` and restores the caller's flag when it returns. -/
theorem C10_return_flag_skips_blocks_until_call :
    (∀ (fuel : Nat) (st : St),
        execStmt (fuel + 1) (Stmt.back_stmt Option.none) st
          = Option.some (Res.ok (),
              { st with return_value := Value.pynone, should_return := true }))
    ∧ (∀ (fuel : Nat) (e : Expr) (st st1 : St) (v : Value),
        evalExpr fuel e st = Option.some (Res.ok v, st1) →
        execStmt (fuel + 1) (Stmt.back_stmt (Option.some e)) st
          = Option.some (Res.ok (),
              { st1 with return_value := v, should_return := true }))
    ∧ (∀ (fuel : Nat) (stmts : List Stmt) (st : St),
        st.should_return = true →
        execBlock (fuel + 1) stmts st = Option.some (Res.ok (), st))
    ∧ (∀ (fuel i : Nat) (s : Stmt) (rest : List Stmt) (st st1 : St),
        execTopStmt fuel i s st = Option.some st1 →
        runProgramAux fuel i (s :: rest) st = runProgramAux fuel (i + 1) rest st1)
    ∧ (∀ (fuel : Nat) (conds : List CondChild) (b1 : List Stmt)
        (b2 : Option (List Stmt)) (st st1 : St) (b : Bool),
        evalConditions (fuel + 1) conds st = Option.some (Res.ok b, st1) →
        st1.should_return = true →
        execStmt (fuel + 2) (Stmt.cause_stmt conds b1 b2) st
          = Option.some (Res.ok (), st1))
    ∧ (∀ (fuel : Nat) (f : String) (args : List Expr) (st st1 st2 st3 st4 st6 : St)
        (ci : Nat) (fi : FuncRec) (argVals cargs : List Value),
        ({ st with used_variables := addToSet f st.used_variables } : St).error_vars_list.contains f = false →
        env_is_function { st with used_variables := addToSet f st.used_variables }
          ({ st with used_variables := addToSet f st.used_variables } : St).cur f = true →
        env_get_func { st with used_variables := addToSet f st.used_variables }
          ({ st with used_variables := addToSet f st.used_variables } : St).cur f = Option.some fi →
        evalExprList fuel args { st with used_variables := addToSet f st.used_variables }
          = Option.some (Res.ok argVals, st1) →
        argVals.length = fi.params.length →
        castArgsLoop st1 f fi.params argVals 0 = (Option.some cargs, st2) →
        create_child_env st2 fi.envIdx = (st3, ci) →
        bindParams st3 ci (fi.params.zip cargs) = st4 →
        execBlock fuel (st4.func_bodies.getD fi.bodyIdx [])
            { st4 with cur := ci, return_value := Value.pynone, should_return := false }
          = Option.some (Res.ok (), st6) →
        ({ st4 with cur := ci, return_value := Value.pynone, should_return := false } : St).should_return = false
          ∧ evalFuncCall (fuel + 1) f args st
            = Option.some (Res.ok st6.return_value,
                { st6 with cur := st4.cur, return_value := st4.return_value, should_return := st4.should_return })) := by
  refine ⟨?_, ?_, ?_, ?_, ?_, ?_⟩
  · intro fuel st
    simp [execStmt]
  · intro fuel e st st1 v he
    simp [execStmt, resBind, he]
  · intro fuel stmts st h
    exact execBlock_skip fuel stmts st (Or.inl h)
  · intro fuel i s rest st st1 hs
    simp [runProgramAux, hs]
  · intro fuel conds b1 b2 st st1 b hc hr
    simp only [execStmt, resBind, hc]
    cases b with
    | true => simpa using execBlock_skip fuel b1 st1 (Or.inl hr)
    | false =>
        cases b2 with
        | none => simp
        | some ob => simpa using execBlock_skip fuel ob st1 (Or.inl hr)
  · intro fuel f args st st1 st2 st3 st4 st6 ci fi argVals cargs
      hpo hfn hgf hargs harity hcast hchild hbind hbody
    refine ⟨rfl, ?_⟩
    simp only [evalFuncCall, hpo, hfn, hgf, resBind, hargs, harity, hcast,
      hchild, hbind, hbody, Bool.false_eq_true, if_false, reduceIte]
    simp [hbind]

/-- Scaffolding for the C10 witness: the body of the one-statement function
`f`, returning `42`. -/
def c10Body : List Stmt := [Stmt.back_stmt (Option.some (intE 42))]

/-- A state with a zero-parameter function `f` registered in the root
scope. -/
def c10St : St :=
  { initSt with scopes := [{ rootScope with functions := [("f", ⟨[], 0, 0⟩)] }], func_bodies := [c10Body] }

/-- The same state after `visit_func_call` marked `f` used. -/
def c10St0 : St := { c10St with used_variables := addToSet "f" c10St.used_variables }

/-- The state extended with the invocation's child scope. -/
def c10St3 : St :=
  { c10St0 with scopes := c10St0.scopes ++ [{ Scope.empty with parent := Option.some 0 }] }

/-- The state after the body of `f` executed its `back.value(42)`. -/
def c10St6 : St :=
  { c10St3 with cur := 1, return_value := Value.int 42, should_return := true }

set_option maxHeartbeats 1600000 in
/-- Witness for C10: `back.value()` sets the flag, and a call to `f` runs
its body with the flag reset and restores it afterwards. -/
theorem C10_witness :
    execStmt 5 (Stmt.back_stmt Option.none) initSt
        = Option.some (Res.ok (),
            { initSt with return_value := Value.pynone, should_return := true })
      ∧ (({ c10St3 with cur := 1, return_value := Value.pynone, should_return := false } : St).should_return = false
        ∧ evalFuncCall 11 "f" [] c10St
          = Option.some (Res.ok c10St6.return_value,
              { c10St6 with cur := c10St3.cur, return_value := c10St3.return_value, should_return := c10St3.should_return })) :=
  ⟨C10_return_flag_skips_blocks_until_call.1 4 initSt,
   C10_return_flag_skips_blocks_until_call.2.2.2.2.2 10 "f" [] c10St c10St0 c10St0
     c10St3 c10St3 c10St6 1 ⟨[], 0, 0⟩ [] []
     (by rfl) (by rfl) (by rfl) (by rfl) (by rfl) (by rfl) (by rfl) (by rfl) (by rfl)⟩

/-- C5: redefining a name already bound in the (visible) scope records
exactly one error for the first offending statement and poisons the name;
afterwards, statements referencing the poisoned name (definitions of any
kind, assignments, calls) record no further error, and a plain reference
to the still-defined name records no error either. -/
theorem C5_redefinition_one_error_then_silence :
    (∀ (fuel : Nat) (ty : TyName) (x : String) (init : Option Expr) (st : St),
        env_is_defined st st.cur x = true →
        st.error_vars_list.contains x = false →
        ("Variable \x27" ++ x ++ "\x27 is already defined") ∉ st.errors →
        ∃ st1, execStmt (fuel + 1) (Stmt.var_def ty x init) st
            = Option.some (Res.ok (), st1)
          ∧ st1.errors = st.errors ++ ["Variable \x27" ++ x ++ "\x27 is already defined"]
          ∧ st1.error_vars_list = st.error_vars_list ++ [x]
          ∧ st1.scopes = st.scopes)
    ∧ (∀ (fuel : Nat) (ty : TyName) (x : String) (init : Option Expr) (st : St),
        st.error_vars_list.contains x = true →
        execStmt (fuel + 1) (Stmt.var_def ty x init) st = Option.some (Res.ok (), st))
    ∧ (∀ (fuel : Nat) (ty : TyName) (x : String) (e : Expr) (st : St),
        st.error_vars_list.contains x = true →
        execStmt (fuel + 1) (Stmt.const_def ty x e) st = Option.some (Res.ok (), st))
    ∧ (∀ (fuel : Nat) (x : String) (es : List Expr) (st : St),
        st.error_vars_list.contains x = true →
        execStmt (fuel + 1) (Stmt.list_def x es) st = Option.some (Res.ok (), st))
    ∧ (∀ (fuel : Nat) (x : String) (ps : List (TyName × String)) (body : List Stmt) (st : St),
        st.error_vars_list.contains x = true →
        execStmt (fuel + 1) (Stmt.func_def x ps body) st = Option.some (Res.ok (), st))
    ∧ (∀ (fuel : Nat) (x : String) (e : Expr) (v : Value) (st st1 : St),
        evalExpr fuel e st = Option.some (Res.ok v, st1) →
        st1.error_vars_list.contains x = true →
        execStmt (fuel + 1) (Stmt.assignment x e) st = Option.some (Res.ok (), st1))
    ∧ (∀ (fuel : Nat) (x : String) (args : List Expr) (st : St),
        st.error_vars_list.contains x = true →
        evalFuncCall (fuel + 1) x args st
          = Option.some (Res.ok Value.pynone,
              { st with used_variables := addToSet x st.used_variables }))
    ∧ (∀ (fuel : Nat) (x : String) (st : St),
        env_is_defined st st.cur x = true →
        ∃ v st1, evalFactor (fuel + 1) (Factor.ident x) st
            = Option.some (Res.ok v, st1) ∧ st1.errors = st.errors) := by
  refine ⟨?_, ?_, ?_, ?_, ?_, ?_, ?_, ?_⟩
  · intro fuel ty x init st hdef hpo hmsg
    have hpo2 : x ∉ st.error_vars_list := by simpa using hpo
    refine ⟨{ add_error st ("Variable \x27" ++ x ++ "\x27 is already defined") with error_vars_list := (add_error st ("Variable \x27" ++ x ++ "\x27 is already defined")).error_vars_list ++ [x] }, ?_, ?_, ?_, ?_⟩
    · simp [execStmt, hpo2, hdef]
    · simp [add_error_append st _ hmsg]
    · simp [add_error]
      split_ifs
      simp
    · simp [add_error]
      split_ifs
      simp
  · intro fuel ty x init st hpo
    simp [execStmt, List.mem_of_elem_eq_true hpo]
  · intro fuel ty x e st hpo
    simp [execStmt, List.mem_of_elem_eq_true hpo]
  · intro fuel x es st hpo
    simp [execStmt, List.mem_of_elem_eq_true hpo]
  · intro fuel x ps body st hpo
    simp [execStmt, List.mem_of_elem_eq_true hpo]
  · intro fuel x e v st st1 he hpo
    simp [execStmt, resBind, he, List.mem_of_elem_eq_true hpo]
  · intro fuel x args st hpo
    simp [evalFuncCall, List.mem_of_elem_eq_true hpo]
  · intro fuel x st hdef
    have hdef0 : env_is_defined { st with used_variables := addToSet x st.used_variables } st.cur x = true := by
      rw [@env_is_defined_congr { st with used_variables := addToSet x st.used_variables } st rfl st.cur x]
      exact hdef
    simp only [evalFactor, hdef0, Bool.true_eq_false, if_false, reduceIte]
    refine ⟨_, _, rfl, ?_⟩
    split_ifs <;> rfl

/-- Scaffolding for witnesses: a state in which the name `z` is poisoned. -/
def poisonedSt : St := { initSt with error_vars_list := ["z"] }

set_option maxHeartbeats 1600000 in
/-- Witness for C5: redefining the bound name `out` records the one error
and poisons it; every statement kind referencing the poisoned name `z` is
silent; reading the defined name `out` records nothing. -/
theorem C5_witness :
    (∃ st1, execStmt 5 (Stmt.var_def TyName.tyInt "out" Option.none) initSt
        = Option.some (Res.ok (), st1)
      ∧ st1.errors = initSt.errors ++ ["Variable \x27out\x27 is already defined"]
      ∧ st1.error_vars_list = initSt.error_vars_list ++ ["out"]
      ∧ st1.scopes = initSt.scopes)
    ∧ execStmt 5 (Stmt.var_def TyName.tyInt "z" Option.none) poisonedSt
        = Option.some (Res.ok (), poisonedSt)
    ∧ execStmt 5 (Stmt.const_def TyName.tyInt "z" (intE 1)) poisonedSt
        = Option.some (Res.ok (), poisonedSt)
    ∧ execStmt 5 ( Stmt.list_def "z" []) poisonedSt
        = Option.some (Res.ok (), poisonedSt)
    ∧ execStmt 5 ( Stmt.func_def "z" [] []) poisonedSt
        = Option.some (Res.ok (), poisonedSt)
    ∧ execStmt 5 (Stmt.assignment "z" (intE 1)) poisonedSt
        = Option.some (Res.ok (), poisonedSt)
    ∧ evalFuncCall 5 "z" [] poisonedSt
        = Option.some (Res.ok Value.pynone,
            { poisonedSt with used_variables := addToSet "z" poisonedSt.used_variables })
    ∧ (∃ v st1, evalFactor 5 (Factor.ident "out") initSt
        = Option.some (Res.ok v, st1) ∧ st1.errors = initSt.errors) :=
  ⟨C5_redefinition_one_error_then_silence.1 4 TyName.tyInt "out" Option.none initSt
      (by rfl) (by rfl) (by simp [initSt]),
   C5_redefinition_one_error_then_silence.2.1 4 TyName.tyInt "z" Option.none poisonedSt (by rfl),
   C5_redefinition_one_error_then_silence.2.2.1 4 TyName.tyInt "z" (intE 1) poisonedSt (by rfl),
   C5_redefinition_one_error_then_silence.2.2.2.1 4 "z" [] poisonedSt (by rfl),
   C5_redefinition_one_error_then_silence.2.2.2.2.1 4 "z" [] [] poisonedSt (by rfl),
   C5_redefinition_one_error_then_silence.2.2.2.2.2.1 4 "z" (intE 1) (Value.int 1)
     poisonedSt poisonedSt (by rfl) (by rfl),
   C5_redefinition_one_error_then_silence.2.2.2.2.2.2.1 4 "z" [] poisonedSt (by rfl),
   C5_redefinition_one_error_then_silence.2.2.2.2.2.2.2 4 "out" initSt (by rfl)⟩

theorem add_error_frame (st : St) (m : String) :
    (add_error st m).scopes = st.scopes ∧ (add_error st m).cur = st.cur
      ∧ (add_error st m).error_vars_list = st.error_vars_list := by
  unfold add_error
  split_ifs <;> simp

set_option maxHeartbeats 1600000 in
/-- C2 counterexample: after the constant `c` is poisoned by a
redefinition, a later assignment statement targeting `c` records no error
at all -- the error list still holds exactly the one redefinition error --
although the claim demands an error from that assignment regardless of
poisoning.  (The stored value is unchanged.) -/
theorem C2_counterexample :
    (runProgram 60 [Stmt.const_def TyName.tyInt "c" (intE 1),
        Stmt.const_def TyName.tyInt "c" (intE 2),
        Stmt.assignment "c" (intE 3)] initSt).map
      (fun st => (st.errors, st.error_vars_list.contains "c",
        (env_get_value st 0 "c") == Option.some (GotVal.val (Value.int 1))))
    = Option.some (["Constant \x27c\x27 is already defined"], true, true) := by decide

/-- C2 (amended): an assignment statement targeting a name that is a
constant of the current scope never changes the stored value; it records
the cannot-assign error when the name is not poisoned and is silently
skipped (recording nothing and changing nothing beyond the evaluation of
its right-hand side) when the name is poisoned. -/
theorem C2_amended_constant_unchanged_error_unless_poisoned
    (fuel : Nat) (x : String) (e : Expr) (st st1 : St) (v w : Value)
    (hc : (getScope st1 st1.cur).constants.lookup x = Option.some w)
    (he : evalExpr fuel e st = Option.some (Res.ok v, st1)) :
    ∃ st2, execStmt (fuel + 1) (Stmt.assignment x e) st = Option.some (Res.ok (), st2)
      ∧ (getScope st2 st2.cur).constants.lookup x = Option.some w
      ∧ st2.scopes = st1.scopes ∧ st2.cur = st1.cur
      ∧ (x ∈ st1.error_vars_list → st2 = st1)
      ∧ (x ∉ st1.error_vars_list →
          st2 = add_error st1
            ("Cannot assign values to constants afterward: \x27" ++ x ++ "\x27")) := by
  have hdef : env_is_defined st1 st1.cur x = true := by
    simp [env_is_defined, isDefinedW, assocHas, hc]
  have hcon : env_is_constant st1 st1.cur x = true := by
    simp [env_is_constant, assocHas, hc]
  by_cases hpo : x ∈ st1.error_vars_list
  · refine ⟨st1, ?_, hc, rfl, rfl, fun _ => rfl, fun hf => absurd hpo hf⟩
    simp [execStmt, resBind, he, hpo]
  · refine ⟨add_error st1 ("Cannot assign values to constants afterward: \x27" ++ x ++ "\x27"),
      ?_, ?_, (add_error_frame st1 _).1, (add_error_frame st1 _).2.1,
      fun hm => absurd hm hpo, fun _ => rfl⟩
    · simp [execStmt, resBind, he, hpo, hdef, hcon]
    · rw [getScope_congr (add_error_frame st1 _).1,
        (add_error_frame st1 _).2.1]
      exact hc

/-- A state whose root scope holds the constant `c` bound to `1`. -/
def constSt : St := { initSt with scopes := [{ rootScope with constants := [("c", Value.int 1)] }] }

set_option maxHeartbeats 1600000 in
/-- Witness for the amended C2 at a concrete constant and assignment. -/
theorem C2_amended_witness :
    ∃ st2, execStmt 5 (Stmt.assignment "c" (intE 3)) constSt = Option.some (Res.ok (), st2)
      ∧ (getScope st2 st2.cur).constants.lookup "c" = Option.some (Value.int 1)
      ∧ st2.scopes = constSt.scopes ∧ st2.cur = constSt.cur
      ∧ ("c" ∈ constSt.error_vars_list → st2 = constSt)
      ∧ ("c" ∉ constSt.error_vars_list →
          st2 = add_error constSt
            ("Cannot assign values to constants afterward: \x27c\x27")) :=
  C2_amended_constant_unchanged_error_unless_poisoned 4 "c" (intE 3) constSt constSt
    (Value.int 3) (Value.int 1) (by rfl) (by rfl)

set_option maxHeartbeats 1600000 in
/-- C9 counterexample: `Again(0, x)` with a pre-existing current-scope
variable `x` removes that binding (and records no error), although the
claim says every pre-existing binding is left untouched including when the
loop names an iteration-index variable. -/
theorem C9_counterexample :
    (runProgram 60 [Stmt.assignment "x" (intE 5),
        Stmt.again_stmt (intE 0) (Option.some "x") []] initSt).map
      (fun st => (env_is_defined st st.cur "x", st.errors))
    = Option.some (false, []) := by decide

/-- C9 (amended): an `Again` whose count evaluates to `0` executes its
block zero times and leaves every binding untouched -- except that, when an
index name was given and that name is visible, the variable of that name is
removed from the current scope's variables table.  The loop also resets
`should_break`. -/
theorem C9_amended_zero_count_loop
    (fuel : Nat) (count : Expr) (idx : Option String) (body : List Stmt)
    (st st1 : St)
    (he : evalExpr (fuel + 1) count st = Option.some (Res.ok (Value.int 0), st1)) :
    ∃ st2, execStmt (fuel + 2) (Stmt.again_stmt count idx body) st
        = Option.some (Res.ok (), st2)
      ∧ st2.errors = st1.errors ∧ st2.cur = st1.cur ∧ st2.should_break = false
      ∧ (idx = Option.none → st2.scopes = st1.scopes)
      ∧ (∀ x, idx = Option.some x → env_is_defined st1 st1.cur x = false →
          st2.scopes = st1.scopes)
      ∧ (∀ x, idx = Option.some x → env_is_defined st1 st1.cur x = true →
          st2.scopes = (setScope st1 st1.cur
            { getScope st1 st1.cur with
              vars := assocRemove x (getScope st1 st1.cur).vars }).scopes) := by
  simp only [execStmt, resBind, he]
  norm_num
  cases idx with
  | none =>
      refine ⟨_, rfl, ?_⟩
      simp [execLoopIter]
  | some x =>
      have hcongr : env_is_defined { st1 with should_break := false } st1.cur x
          = env_is_defined st1 st1.cur x :=
        @env_is_defined_congr { st1 with should_break := false } st1 rfl st1.cur x
      by_cases hdefx : env_is_defined st1 st1.cur x = true
      · refine ⟨_, rfl, ?_⟩
        simp [execLoopIter, hcongr, hdefx, setScope, getScope]
      · have hdefx2 : env_is_defined st1 st1.cur x = false := by
          simpa using hdefx
        refine ⟨_, rfl, ?_⟩
        simp [execLoopIter, hcongr, hdefx2]

set_option maxHeartbeats 1600000 in
/-- Witness for the amended C9: `Again(0, out)` with the pre-defined name
`out` and a non-empty body. -/
theorem C9_amended_witness :
    ∃ st2, execStmt 5 (Stmt.again_stmt (intE 0) (Option.some "out") [Stmt.rep_stop]) initSt
        = Option.some (Res.ok (), st2)
      ∧ st2.errors = initSt.errors ∧ st2.cur = initSt.cur ∧ st2.should_break = false
      ∧ (Option.some "out" = (Option.none : Option String) → st2.scopes = initSt.scopes)
      ∧ (∀ x, Option.some "out" = Option.some x → env_is_defined initSt initSt.cur x = false →
          st2.scopes = initSt.scopes)
      ∧ (∀ x, Option.some "out" = Option.some x → env_is_defined initSt initSt.cur x = true →
          st2.scopes = (setScope initSt initSt.cur
            { getScope initSt initSt.cur with
              vars := assocRemove x (getScope initSt initSt.cur).vars }).scopes) :=
  C9_amended_zero_count_loop 3 (intE 0) (Option.some "out") [Stmt.rep_stop]
    initSt initSt (by rfl)

/-- Modelled from the spec: the strict left-to-right fold over the
collected condition results with short-circuit, as the spec words it --
"apply each subsequent operator against the running result, short-circuiting
further evaluation once `and` is false or `or` is true": each operator is
applied to the running result, and the fold stops as soon as an `and`
application has produced `false` or an `or` application has produced
`true`. -/
def specShortCircuitFold (first : Bool) : List (LOp × Bool) → Bool
  | [] => first
  | (op, b) :: rest =>
      let next := match op with
        | LOp.and => first && b
        | LOp.or => first || b
      if (op = LOp.and ∧ next = false) ∨ (op = LOp.or ∧ next = true) then next
      else specShortCircuitFold next rest

set_option maxHeartbeats 1600000 in
/-- C4 counterexample: in `Cause 1 > 2 and 5/0 > 0 [...]`, the first
condition is false and the operator is `and`, yet the second condition is
still evaluated -- its division-by-zero error is recorded -- contradicting
the claim that the remaining conditions are not evaluated at all. -/
theorem C4_counterexample :
    (runProgram 60
      [Stmt.cause_stmt
        [CondChild.cond ⟨intE 1, CmpOp.cgt, intE 2⟩,
         CondChild.lop (Option.some LOp.and),
         CondChild.cond ⟨Expr.mk (Term.mk (Factor.numInt 5) [(MulOp.div, Factor.numInt 0)]) [],
           CmpOp.cgt, intE 0⟩]
        [Stmt.assignment "t" (intE 1)] Option.none] initSt).map
      (fun st => (st.errors, env_is_defined st st.cur "t"))
    = Option.some (["Division by zero"], false) := by decide

/-- C4 (amended): the combining loop of `visit_conditions` computes exactly
the spec's short-circuit left fold over the collected results; but the
conditions themselves are all evaluated up front -- for a two-condition
group, the second condition is evaluated whatever the first produced, and
only then is the fold applied. -/
theorem C4_amended_all_conditions_evaluated_fold_matches_spec :
    (∀ (first : Bool) (pairs : List (LOp × Bool)),
        combine_logic first pairs = specShortCircuitFold first pairs)
    ∧ (∀ (fuel : Nat) (c1 c2 : Cond) (tok : Option LOp) (st st1 st2 : St) (b1 b2 : Bool),
        evalCondition (fuel + 3) c1 st = Option.some (Res.ok b1, st1) →
        evalCondition (fuel + 1) c2 st1 = Option.some (Res.ok b2, st2) →
        evalConditions (fuel + 5)
            [CondChild.cond c1, CondChild.lop tok, CondChild.cond c2] st
          = Option.some (Res.ok (combine_logic b1 [(visit_logic_op st1 tok, b2)]), st2)) := by
  constructor
  · intro first pairs
    induction pairs generalizing first with
    | nil => simp [combine_logic, specShortCircuitFold]
    | cons p rest ih =>
        obtain ⟨op, b⟩ := p
        cases op <;> cases first <;> cases b <;>
          simp [combine_logic, specShortCircuitFold, ih]
  · intro fuel c1 c2 tok st st1 st2 b1 b2 h1 h2
    simp [evalConditions, evalCondChildren, resBind, h1, h2, combine_logic]

set_option maxHeartbeats 1600000 in
/-- C3 counterexample: inside `Again(1, i) [ y -> now.repeat ]` the loop
bound the index name `i`, yet `now.repeat` does not yield the iteration
count `1`: it records the only-inside-a-loop error and yields no value
(`y` is auto-created holding `None`). -/
theorem C3_counterexample :
    (runProgram 60
      [Stmt.again_stmt (intE 1) (Option.some "i")
        [Stmt.assignment "y" (fExpr (Factor.member "now" "repeat"))]] initSt).map
      (fun st => (st.errors,
        env_get_value st st.cur "y" == Option.some (GotVal.val Value.pynone)))
    = Option.some
        (["\x27now.repeat\x27 can only be used inside an Again loop that provides a repeat parameter"],
          true) := by decide

/-- C3 (amended): `now.repeat` resolves the environment name that is
literally `repeat`: with such a binding visible it yields that binding's
value (in particular the 1-based iteration count which the loop rebinding
writes when the bound index name is literally `repeat`), and with no such
binding it records the error and yields no value.  The loop rebinds its
index name -- whatever it is -- to `i + 1` before each iteration. -/
theorem C3_amended_now_repeat_reads_the_name_repeat :
    (∀ (fuel : Nat) (st : St),
        env_is_defined st st.cur "now" = true →
        env_get_value st st.cur "now"
          = Option.some (GotVal.val (Value.builtin [("repeat", "now.repeat")])) →
        env_is_defined st st.cur "repeat" = true →
        evalFactor (fuel + 1) (Factor.member "now" "repeat") st
          = Option.some (Res.ok
              ((env_get_value st st.cur "repeat").getD (GotVal.val Value.pynone)).toValue, st))
    ∧ (∀ (fuel : Nat) (st : St),
        env_is_defined st st.cur "now" = true →
        env_get_value st st.cur "now"
          = Option.some (GotVal.val (Value.builtin [("repeat", "now.repeat")])) →
        env_is_defined st st.cur "repeat" = false →
        evalFactor (fuel + 1) (Factor.member "now" "repeat") st
          = Option.some (Res.ok Value.pynone, add_error st
              "\x27now.repeat\x27 can only be used inside an Again loop that provides a repeat parameter"))
    ∧ (∀ (fuel : Nat) (body : List Stmt) (x : String) (i rem : Nat) (st : St),
        st.should_break = false →
        execLoopIter (fuel + 1) body (Option.some x) i (rem + 1) st
          = resBind (execBlock fuel body
              (env_define_var st st.cur x (Value.int ((i : Int) + 1))))
              (fun _ st2 => if st2.should_break then Option.some (Res.ok (), st2)
                else execLoopIter fuel body (Option.some x) (i + 1) rem st2))
    ∧ (∀ (st : St) (i : Nat) (k : Int),
        (getScope st i).constants.lookup "repeat" = Option.none →
        i < st.scopes.length →
        env_get_value (env_define_var st i "repeat" (Value.int k)) i "repeat"
          = Option.some (GotVal.val (Value.int k))) := by
  refine ⟨?_, ?_, ?_, ?_⟩
  · intro fuel st hdef hget hrep
    simp [evalFactor, hdef, hget, GotVal.toValue, pyContainsR, assocHas, hrep]
  · intro fuel st hdef hget hrep
    simp [evalFactor, hdef, hget, GotVal.toValue, pyContainsR, assocHas, hrep]
  · intro fuel body x i rem st hb
    simp [execLoopIter, hb]
  · intro st i k hc hlen
    exact get_after_define_var st i "repeat" (Value.int k) hc hlen

set_option maxHeartbeats 1600000 in
/-- Witness for the amended C3: reading `now.repeat` with and without a
binding named `repeat`, the loop rebinding, and the lookup after it. -/
theorem C3_amended_witness :
    evalFactor 5 (Factor.member "now" "repeat")
        { initSt with scopes := [{ rootScope with vars := rootScope.vars ++ [("repeat", Value.int 7)] }] }
      = Option.some (Res.ok
          ((env_get_value { initSt with scopes := [{ rootScope with vars := rootScope.vars ++ [("repeat", Value.int 7)] }] } ({ initSt with scopes := [{ rootScope with vars := rootScope.vars ++ [("repeat", Value.int 7)] }] } : St).cur "repeat").getD (GotVal.val Value.pynone)).toValue,
          { initSt with scopes := [{ rootScope with vars := rootScope.vars ++ [("repeat", Value.int 7)] }] })
    ∧ evalFactor 5 (Factor.member "now" "repeat") initSt
      = Option.some (Res.ok Value.pynone, add_error initSt
          "\x27now.repeat\x27 can only be used inside an Again loop that provides a repeat parameter")
    ∧ execLoopIter 5 [Stmt.rep_stop] (Option.some "repeat") 0 3 initSt
      = resBind (execBlock 4 [Stmt.rep_stop]
          (env_define_var initSt initSt.cur "repeat" (Value.int ((0 : Int) + 1))))
          (fun _ st2 => if st2.should_break then Option.some (Res.ok (), st2)
            else execLoopIter 4 [Stmt.rep_stop] (Option.some "repeat") 1 2 st2)
    ∧ env_get_value (env_define_var initSt 0 "repeat" (Value.int 4)) 0 "repeat"
      = Option.some (GotVal.val (Value.int 4)) :=
  ⟨C3_amended_now_repeat_reads_the_name_repeat.1 4
      { initSt with scopes := [{ rootScope with vars := rootScope.vars ++ [("repeat", Value.int 7)] }] }
      (by rfl) (by rfl) (by rfl),
   C3_amended_now_repeat_reads_the_name_repeat.2.1 4 initSt (by rfl) (by rfl) (by rfl),
   C3_amended_now_repeat_reads_the_name_repeat.2.2.1 4 [Stmt.rep_stop] "repeat" 0 2 initSt (by rfl),
   C3_amended_now_repeat_reads_the_name_repeat.2.2.2 initSt 0 4 (by rfl) (by decide)⟩

set_option maxHeartbeats 1600000 in
/-- Witness for the amended C4: a concrete two-condition group combined
with `and`. -/
theorem C4_amended_witness :
    evalConditions 10
        [CondChild.cond ⟨intE 1, CmpOp.cgt, intE 2⟩,
         CondChild.lop (Option.some LOp.and),
         CondChild.cond ⟨intE 1, CmpOp.clt, intE 2⟩] initSt
      = Option.some (Res.ok
          (combine_logic false [(visit_logic_op initSt (Option.some LOp.and), true)]), initSt) :=
  C4_amended_all_conditions_evaluated_fold_matches_spec.2 5
    ⟨intE 1, CmpOp.cgt, intE 2⟩ ⟨intE 1, CmpOp.clt, intE 2⟩ (Option.some LOp.and)
    initSt initSt initSt false true (by rfl) (by rfl)

set_option maxHeartbeats 1600000 in
/-- C7 counterexample: `w -> "ab" * 3` stores the repeated string
`"ababab"` and records no error, although the claim says `*` applied to a
non-numeric operand is an error. -/
theorem C7_counterexample :
    (runProgram 60
      [Stmt.assignment "w"
        (Expr.mk (Term.mk (Factor.strLit "ab") [(MulOp.mul, Factor.numInt 3)]) [])] initSt).map
      (fun st => (st.errors,
        env_get_value st st.cur "w" == Option.some (GotVal.val (Value.str "ababab"))))
    = Option.some ([], true) := by decide

/-- C7 (amended): `+` concatenates the `str` forms when either operand is
a `str` and adds numerically when both are numeric; `-` and `/` raise a
`TypeError` whenever an operand is a `str` (recorded as an error by the
top-level handler); but `*` of a `str` and an `int` (in either order) is
string repetition, not an error. -/
theorem C7_amended_plus_concat_sub_div_error_mul_repeats :
    (∀ (fuel : Nat) (rest : List (AddOp × Term)) (t : Term) (acc rv : Value) (st st1 : St),
        evalTerm fuel t st = Option.some (Res.ok rv, st1) →
        (isStrV acc || isStrV rv) = true →
        evalExprOps (fuel + 1) ((AddOp.add, t) :: rest) acc st
          = evalExprOps fuel rest (Value.str (pyStr acc ++ pyStr rv)) st1)
    ∧ (∀ a b : Int, pyAddRaw (Value.int a) (Value.int b) = Res.ok (Value.int (a + b)))
    ∧ (∀ (a : Int) (q : ℚ), pyAddRaw (Value.int a) (Value.float q) = Res.ok (Value.float ((a : ℚ) + q)))
    ∧ (∀ (q : ℚ) (a : Int), pyAddRaw (Value.float q) (Value.int a) = Res.ok (Value.float (q + (a : ℚ))))
    ∧ (∀ q r : ℚ, pyAddRaw (Value.float q) (Value.float r) = Res.ok (Value.float (q + r)))
    ∧ (∀ (s : String) (w : Value),
        pySub (Value.str s) w = Res.exn (unsupportedOp "-" (Value.str s) w)
          ∧ pySub w (Value.str s) = Res.exn (unsupportedOp "-" w (Value.str s)))
    ∧ (∀ (s : String) (w : Value),
        pyDiv (Value.str s) w = Res.exn (unsupportedOp "/" (Value.str s) w)
          ∧ pyDiv w (Value.str s) = Res.exn (unsupportedOp "/" w (Value.str s)))
    ∧ (∀ (fuel i : Nat) (s : Stmt) (st st1 : St) (m : String),
        execStmt fuel s { st with current_line_num := i + 1 } = Option.some (Res.exn m, st1) →
        containsMarker m = false →
        execTopStmt fuel i s st = Option.some (add_error st1 m))
    ∧ (∀ (s : String) (n : Int),
        pyMul (Value.str s) (Value.int n) = Res.ok (Value.str (strRepeat s n)))
    ∧ (∀ (n : Int) (s : String),
        pyMul (Value.int n) (Value.str s) = Res.ok (Value.str (strRepeat s n))) := by
  refine ⟨?_, ?_, ?_, ?_, ?_, ?_, ?_, ?_, ?_, ?_⟩
  · intro fuel rest t acc rv st st1 ht hstr
    simp [evalExprOps, resBind, ht, hstr]
  · intro a b; rfl
  · intro a q; rfl
  · intro q a; rfl
  · intro q r; rfl
  · intro s w
    constructor <;> cases w <;> rfl
  · intro s w
    constructor <;> cases w <;> rfl
  · intro fuel i s st st1 m hs hm
    simp [execTopStmt, hs, hm]
  · intro s n; rfl
  · intro n s; rfl

set_option maxHeartbeats 1600000 in
/-- Witness for the amended C7: a concrete string concatenation step and a
concrete recorded `TypeError` from `"a" - "b"`. -/
theorem C7_amended_witness :
    evalExprOps 6 [(AddOp.add, Term.mk (Factor.strLit "b") [])] (Value.str "a") initSt
      = evalExprOps 5 [] (Value.str ("a" ++ "b")) initSt
    ∧ execTopStmt 10 0
        (Stmt.assignment "q"
          (Expr.mk (Term.mk (Factor.strLit "a") []) [(AddOp.sub, Term.mk (Factor.strLit "b") [])]))
        initSt
      = Option.some (add_error { initSt with current_line_num := 1 }
          "unsupported operand type(s) for -: \x27str\x27 and \x27str\x27") :=
  ⟨C7_amended_plus_concat_sub_div_error_mul_repeats.1 5 [] (Term.mk (Factor.strLit "b") [])
      (Value.str "a") (Value.str "b") initSt initSt (by rfl) (by rfl),
   C7_amended_plus_concat_sub_div_error_mul_repeats.2.2.2.2.2.2.2.1 10 0
      (Stmt.assignment "q"
        (Expr.mk (Term.mk (Factor.strLit "a") []) [(AddOp.sub, Term.mk (Factor.strLit "b") [])]))
      initSt { initSt with current_line_num := 1 }
      "unsupported operand type(s) for -: \x27str\x27 and \x27str\x27"
      (by rfl) (by rfl)⟩

/-- C1: for a variable -- a name resolving through the `get_value` walk to
a variables-table entry holding `w` -- that is not poisoned and whose
stored value is not `None`, an assignment statement casts the evaluated
right-hand side into the runtime type of the current stored value `w`; on
success the stored value becomes the cast result, whose runtime type
equals that of `w` (the type the variable was created with is preserved);
on failure an error is recorded and the stored value is unchanged. -/
theorem C1_assignment_casts_into_current_type_or_rejects
    (fuel : Nat) (x : String) (e : Expr) (st st1 : St) (v w : Value) (j : Nat)
    (he : evalExpr fuel e st = Option.some (Res.ok v, st1))
    (hpo : x ∉ st1.error_vars_list)
    (hres : ResolvesVar st1 x st1.cur j w)
    (hnone : isNoneV w = false) :
    ∃ st2, execStmt (fuel + 1) (Stmt.assignment x e) st = Option.some (Res.ok (), st2)
      ∧ ((∃ nv, (cast_type st1 v (typeNameOf w) x).1 = Option.some nv
            ∧ typeNameOf nv = typeNameOf w
            ∧ env_get_value st2 st2.cur x = Option.some (GotVal.val nv))
        ∨ ((cast_type st1 v (typeNameOf w) x).1 = Option.none
            ∧ env_get_value st2 st2.cur x = Option.some (GotVal.val w)
            ∧ st2.scopes = st1.scopes
            ∧ ∃ m, st2.errors = (add_error st1 m).errors)) := by
  have hdef : env_is_defined st1 st1.cur x = true := resolves_isDefined hres
  have hconst : env_is_constant st1 st1.cur x = false := resolves_not_constant hres
  have hget : env_get_value st1 st1.cur x = Option.some (GotVal.val w) :=
    resolves_getValue hres
  have hcsc := cast_type_state st1 v (typeNameOf w) x
  rcases hc : cast_type st1 v (typeNameOf w) x with ⟨copt, stc⟩
  rw [hc] at hcsc
  cases copt with
  | some nv =>
      have hty : typeNameOf nv = typeNameOf w :=
        cast_type_ok_type st1 v (typeNameOf w) x nv (by rw [hc])
      have hresc : ResolvesVar stc x st1.cur j w := resolves_congr hcsc.1.symm hres
      have hset : env_set_value stc stc.cur x nv
          = Except.ok (setScope stc j
              { getScope stc j with vars := assocSet x nv (getScope stc j).vars }) := by
        rw [hcsc.2]
        exact resolves_setValue hresc nv
      refine ⟨{ setScope stc j { getScope stc j with vars := assocSet x nv (getScope stc j).vars } with assigned_vars := addToSet x (setScope stc j { getScope stc j with vars := assocSet x nv (getScope stc j).vars }).assigned_vars }, ?_, Or.inl ⟨nv, rfl, hty, ?_⟩⟩
      · simp only [execStmt, resBind, he, hdef, hconst, hget, Option.getD_some,
          GotVal.toValue, hnone, hc, hset, Bool.true_eq_false, Bool.false_eq_true,
          if_false, reduceIte]
        simp [hpo]
      · have hcur2 : (setScope stc j
            { getScope stc j with vars := assocSet x nv (getScope stc j).vars } : St).cur
            = st1.cur := hcsc.2
        rw [show (({ setScope stc j { getScope stc j with vars := assocSet x nv (getScope stc j).vars } with assigned_vars := addToSet x (setScope stc j { getScope stc j with vars := assocSet x nv (getScope stc j).vars }).assigned_vars }) : St).cur = st1.cur from hcur2]
        exact (@env_get_value_congr
          { setScope stc j { getScope stc j with vars := assocSet x nv (getScope stc j).vars } with assigned_vars := addToSet x (setScope stc j { getScope stc j with vars := assocSet x nv (getScope stc j).vars }).assigned_vars }
          (setScope stc j
          { getScope stc j with vars := assocSet x nv (getScope stc j).vars }) rfl
          st1.cur x).trans (resolves_get_after_set hresc nv)
  | none =>
      refine ⟨stc, ?_, Or.inr ⟨rfl, ?_, hcsc.1, ?_⟩⟩
      · simp only [execStmt, resBind, he, hdef, hconst, hget, Option.getD_some,
          GotVal.toValue, hnone, hc, Bool.true_eq_false, Bool.false_eq_true,
          if_false, reduceIte]
        simp [hpo]
      · rw [hcsc.2, env_get_value_congr hcsc.1]
        exact hget
      · have hc1 : (cast_type st1 v (typeNameOf w) x).1 = Option.none := by rw [hc]
        have := cast_type_fail_errors st1 v (typeNameOf w) x
          (fun hh => hpo hh.2) hc1
        rw [hc] at this
        exact this

/-- Concrete state for exercising the assignment path: the root scope
extended with an `int` variable `x` holding `5`. -/
def c1St : St :=
  { initSt with scopes := [{ rootScope with vars := rootScope.vars ++ [("x", Value.int 5)] }] }

/-- Witness for C1: assigning `7` to the `int` variable `x = 5` in a concrete
state satisfies every hypothesis, and the cast succeeds with the stored
value updated to an `int`. -/
theorem C1_witness :
    evalExpr 4 (intE 7) c1St = Option.some (Res.ok (Value.int 7), c1St)
    ∧ "x" ∉ c1St.error_vars_list
    ∧ ResolvesVar c1St "x" c1St.cur 0 (Value.int 5)
    ∧ isNoneV (Value.int 5) = false
    ∧ (∃ st2, execStmt 5 (Stmt.assignment "x" (intE 7)) c1St = Option.some (Res.ok (), st2)
      ∧ ((∃ nv, (cast_type c1St (Value.int 7) (typeNameOf (Value.int 5)) "x").1 = Option.some nv
            ∧ typeNameOf nv = typeNameOf (Value.int 5)
            ∧ env_get_value st2 st2.cur "x" = Option.some (GotVal.val nv))
        ∨ ((cast_type c1St (Value.int 7) (typeNameOf (Value.int 5)) "x").1 = Option.none
            ∧ env_get_value st2 st2.cur "x" = Option.some (GotVal.val (Value.int 5))
            ∧ st2.scopes = c1St.scopes
            ∧ ∃ m, st2.errors = (add_error c1St m).errors))) :=
  ⟨by rfl, by decide, ResolvesVar.here 0 (Value.int 5) (by rfl) (by rfl), by rfl,
   C1_assignment_casts_into_current_type_or_rejects 4 "x" (intE 7) c1St c1St
     (Value.int 7) (Value.int 5) 0 (by rfl) (by decide)
     (ResolvesVar.here 0 (Value.int 5) (by rfl) (by rfl)) (by rfl)⟩

end FAP
